import Mathlib

/-!
Verification of the consensus processing core of factomd
(`state/stateConsensus.go`) against its natural-language specification.

The Go code is shallowly embedded: the consensus `State` becomes a Lean
structure, pointer-shared process lists become a height-indexed association
list with write-through updates, Go panics become `Except.error`, and calls
into collaborator packages that are not part of the embedded file
(crypto, storage, message method dispatch) are modelled either from the
specification or as recorded trace events.
-/

namespace FactomdConsensus

/-- Abstract 32-byte hash values.  `comb` models the external
`primitives.CreateHash(a, b) = H(a ‖ b)` as a free (hence collision-free)
pairing constructor; `raw` models any other digest. -/
inductive HashV where
  | raw (n : Nat)
  | comb (a b : HashV)
deriving DecidableEq, Repr, Inhabited

/-- Modelled from the spec: the crypto interface `H(a ‖ b)` producing a
32-byte digest (`primitives.CreateHash`, outside src/).  Modelled as the
free pairing constructor of `HashV`. -/
def CreateHash (a b : HashV) : HashV := HashV.comb a b

/-- Association-list lookup, used for all of the Go maps of the state. -/
def aget {κ β : Type} [DecidableEq κ] (l : List (κ × β)) (k : κ) : Option β :=
  (l.find? (fun p => decide (p.1 = k))).map Prod.snd

/-- Association-list insert/overwrite (`m[k] = v`). -/
def aput {κ β : Type} [DecidableEq κ] (l : List (κ × β)) (k : κ) (v : β) :
    List (κ × β) :=
  (k, v) :: l.filter (fun p => !decide (p.1 = k))

/-- Association-list delete (`delete(m, k)`). -/
def adel {κ β : Type} [DecidableEq κ] (l : List (κ × β)) (k : κ) :
    List (κ × β) :=
  l.filter (fun p => !decide (p.1 = k))

/-- Pad a list with a default value so that index `n` exists. -/
def padTo {α : Type} (l : List α) (n : Nat) (d : α) : List α :=
  l ++ List.replicate (n + 1 - l.length) d

/-- Unsigned 32-bit predecessor: `uint32(h - 1)` wraps at zero. -/
def u32pred (n : Nat) : Nat := if n = 0 then 4294967295 else n - 1

/-- Modelled from the spec: one time-windowed replay filter
(`Replay`/`FReplay`, code outside src/).  The spec describes each filter as
a windowed hash set accepting a hash iff it was not yet seen within the
window; the window bookkeeping itself is abstracted away (every recorded
hash counts as inside the window). -/
structure ReplayFilter where
  seen : List HashV := []
deriving DecidableEq, Repr, Inhabited

/-- Membership test of a replay filter. -/
def ReplayFilter.seenB (r : ReplayFilter) (h : HashV) : Bool :=
  r.seen.any (fun x => decide (x = h))

/-- Modelled from the spec: `Replay.Valid(kind, hash, ts, now)` accepts iff
the hash is unseen within the window. -/
def ReplayFilter.validB (r : ReplayFilter) (h : HashV) : Bool :=
  !(r.seenB h)

/-- Modelled from the spec: `Replay.IsTSValid_` seals a hash into the
filter; re-inserting an already-present hash is a no-op. -/
def ReplayFilter.isTSValid (r : ReplayFilter) (h : HashV) : ReplayFilter :=
  if r.seenB h then r else { seen := h :: r.seen }

/-- The fields of `messages.Ack` that `stateConsensus.go` reads or writes. -/
structure Ack where
  DBHeight : Nat := 0
  VMIndex : Nat := 0
  Minute : Nat := 0
  Height : Nat := 0
  MessageHash : HashV := .raw 0
  SerialHash : HashV := .raw 0
  LeaderChainID : Nat := 0
  BalanceHash : Option HashV := none
  Timestamp : Nat := 0
deriving DecidableEq, Repr, Inhabited

/-- One virtual server of a process list.  `MsgList` embeds the Go field
`vm.List` (the message hash of each slot; the name `List` itself is taken in
Lean) and `ListAck` the acknowledgement of the same slot. -/
structure VM where
  MsgList : List HashV := []
  ListAck : List Ack := []
  LeaderMinute : Nat := 0
  Synced : Bool := false
  Signed : Bool := false
  Height : Nat := 0
  EomMinuteIssued : Nat := 0
  WhenFaulted : Nat := 0
deriving DecidableEq, Repr, Inhabited

/-- Directory block header data used by the consensus core. -/
structure DBlock where
  DBHeight : Nat := 0
  KeyMR : String := ""
  Timestamp : Nat := 0
deriving DecidableEq, Repr, Inhabited

/-- A factoid transaction: its signature hash and timestamp, which is all
the replay scan of `FollowerExecuteDBState` reads. -/
structure FTx where
  sigHash : HashV := .raw 0
  Timestamp : Nat := 0
deriving DecidableEq, Repr, Inhabited

/-- A factoid block as a list of transactions (index 0 is the coinbase). -/
structure FBlock where
  Transactions : List FTx := []
deriving DecidableEq, Repr, Inhabited

/-- A per-height process list; admin/EC blocks and new-entry collections are
kept abstract (`Nat` identifiers), which is all the embedded file needs. -/
structure ProcessList where
  DBHeight : Nat := 0
  FedServers : List Nat := []
  VMs : List VM := []
  SystemHeight : Int := 0
  SysHighest : Int := 0
  DirectoryBlock : DBlock := {}
  AdminBlock : Nat := 0
  EntryCreditBlock : Nat := 0
  NewEBlocks : List Nat := []
  NewEntries : List Nat := []
  DBSigAlreadySent : Bool := false
  FactoidBalancesT : List (Nat × Int) := []
  ECBalancesT : List (Nat × Int) := []
deriving DecidableEq, Repr, Inhabited

/-- A completed-block snapshot (`state.DBState`). -/
structure DBState where
  DirectoryBlock : DBlock := {}
  AdminBlock : Nat := 0
  FactoidBlock : FBlock := {}
  EntryCreditBlock : Nat := 0
  EBlocks : List Nat := []
  Entries : List Nat := []
  IsNew : Bool := false
  ReadyToSave : Bool := false
  Locked : Bool := false
  Signed : Bool := false
  Saved : Bool := false
  SaveStructSome : Bool := false
deriving DecidableEq, Repr, Inhabited

/-- The payload of a `messages.DBStateMsg`.  `ValidNextR` is the verdict of
the external predecessor check `pdbstate.ValidNext(s, msg)` (DBState code
outside src/), modelled from the spec as an oracle carried by the message:
1 = apply now, 0 = pending, -1 = invalid. -/
structure DBStateMsg where
  DirectoryBlock : DBlock := {}
  AdminBlock : Nat := 0
  FactoidBlock : FBlock := {}
  EntryCreditBlock : Nat := 0
  EBlocks : List Nat := []
  Entries : List Nat := []
  IsInDB : Bool := false
  IsLocalF : Bool := false
  ValidNextR : Int := 1
deriving DecidableEq, Repr, Inhabited

/-- Commit messages for the commit registry: the variant tag plus the entry
credits of the commit, which is all `IsHighestCommit` inspects. -/
inductive CommitMsg where
  | commitEntryM (credits : Nat)
  | commitChainM (credits : Nat)
deriving DecidableEq, Repr, Inhabited

/-- Variant payload of a consensus message.  The embedded file only needs
the DBState payload concretely; every other variant behaves generically for
the claims at hand. -/
inductive MsgBody where
  | generic
  | dbstateB (d : DBStateMsg)
deriving DecidableEq, Repr, Inhabited

/-- A consensus message with the envelope fields `executeMsg` touches.
`ValidateR` is the verdict of the external per-type `msg.Validate(s)`
(messages package, outside src/), modelled from the spec as an oracle:
1 = valid now, 0 = not yet, -1 = invalid forever. -/
structure Msg where
  MsgHash : HashV := .raw 0
  RepeatHash : HashV := .raw 0
  Timestamp : Nat := 0
  VMIndex : Nat := 0
  Minute : Nat := 0
  LeaderChainID : Nat := 0
  IsLocalF : Bool := false
  IsPeer2PeerF : Bool := false
  SentInvalid : Bool := false
  ValidateR : Int := 0
  Body : MsgBody := .generic
deriving DecidableEq, Repr, Inhabited

/-- The fields of a `messages.EOM` that `ProcessEOM` reads. -/
structure EOMMsg where
  DBHeight : Nat := 0
  VMIndex : Nat := 0
  Minute : Nat := 0
  SysHeight : Nat := 0
deriving DecidableEq, Repr, Inhabited

/-- Trace events recording invocations of collaborators that live outside
the embedded file (block builders, DBState ledger maintenance, outbound
sends).  Only the fact and arguments of the call are consensus-relevant. -/
inductive Event where
  | plUpdateStateEv (ht : Nat)
  | dbsUpdateStateEv
  | executeEntriesEv (ht : Nat)
  | trimBackEv (ht : Nat)
  | catchupEv
  | saveStateEv (ht : Nat)
  | minuteMarkerEv (eblock : Nat) (minute : Nat)
  | endOfPeriodEv (minute : Nat)
  | ecMinuteNumberEv (minute : Nat)
  | fixupLinksEv (prevHt : Nat) (newHt : Nat)
  | processBlocksEv (ht : Nat)
  | getAckChangeEv
  | reloadIdentityEv
  | leaderExecDBSigEv (dbheight : Nat) (isLocal : Bool)
  | dbsigAskEv (dbheight : Nat) (vmIndex : Nat)
  | removeExpiredEv
  | heartbeatEv (dbheight : Nat)
deriving DecidableEq, Repr, Inhabited

/-- External collaborators consumed through interfaces: configuration
constants, identity computations, and failure switches for external calls
that can make the Go code panic or return nil. -/
structure Env where
  CheckPoints : List (Nat × String) := []
  defaultFedServers : List Nat := []
  getVirtualServers : Nat → Nat → Bool × Nat := fun _ _ => (false, 0)
  computeVMIndex : HashV → Nat → Nat := fun _ v => v
  newDBStateOK : Bool := true
  signFails : Bool := false
  fastBoot : Bool := false
  saveFails : Bool := false
  ackChangeVal : Nat := 0
  configIdentityChainID : Nat := 0
  currentBalanceHash : HashV := .raw 0

/-- The consensus state: the fields of `state.State` that
`stateConsensus.go` reads or writes, plus the event trace and the queues it
feeds.  `LeaderPLHeight` models the `s.LeaderPL` pointer: every read or
write through `s.LeaderPL` goes to the process list stored at this height,
which reproduces the aliasing of the Go pointer. -/
structure State where
  Network : String := "MAIN"
  FactomNodeName : String := "node"
  IdentityChainID : Nat := 0
  LLeaderHeight : Nat := 0
  CurrentMinute : Nat := 0
  LeaderPLHeight : Nat := 0
  Leader : Bool := false
  LeaderVMIndex : Nat := 0
  Syncing : Bool := false
  Saving : Bool := false
  RunLeader : Bool := false
  IgnoreMissing : Bool := false
  EOM : Bool := false
  EOMDone : Bool := false
  EOMSys : Bool := false
  EOMsyncing : Bool := false
  EOMLimit : Int := 0
  EOMProcessed : Int := 0
  EOMMinute : Int := 0
  DBSig : Bool := false
  DBSigDone : Bool := false
  DBSigSys : Bool := false
  DBSigProcessed : Int := 0
  DBSigLimit : Int := 0
  AckChange : Nat := 0
  HighestKnown : Nat := 0
  HighestSaved : Nat := 0
  EntryDBHeightComplete : Nat := 0
  StartDelay : Nat := 0
  TempBalanceHash : HashV := .raw 0
  FactoidStateCurrentBlock : FBlock := {}
  ProcessLists : List (Nat × ProcessList) := []
  ProcessListsDBHeightBase : Nat := 0
  DBStates : List (Nat × DBState) := []
  DBStatesReceivedBase : Int := 0
  DBStatesReceived : List (Option DBStateMsg) := []
  DBStatesLastEnd : Int := 0
  DBStatesLastBegin : Int := 0
  TimeToAskSome : Bool := false
  Replay : ReplayFilter := {}
  FReplay : ReplayFilter := {}
  Holding : List (HashV × Msg) := []
  Acks : List (HashV × Ack) := []
  Commits : List (HashV × CommitMsg) := []
  XReview : List Msg := []
  invalidMsgQueue : List Msg := []
  trace : List Event := []
  now : Nat := 0
  DBStateAppliedCnt : Nat := 0
  DBStateIgnoreCnt : Nat := 0
  ExpireCnt : Nat := 0
  env : Env := {}

/-- Modelled from the spec: a freshly allocated process list
(`ProcessLists.Get` creates lists on demand; processList.go is outside
src/).  It has one VM per federated server and clear flags. -/
def plNew (s : State) (ht : Nat) : ProcessList :=
  { DBHeight := ht
    FedServers := s.env.defaultFedServers
    VMs := s.env.defaultFedServers.map (fun _ => {}) }

/-- `s.ProcessLists.Get(ht)`: return the process list at `ht`, allocating
and recording a fresh one when absent. -/
def plGetPair (s : State) (ht : Nat) : State × ProcessList :=
  match aget s.ProcessLists ht with
  | some pl => (s, pl)
  | none =>
      let pl := plNew s ht
      ({ s with ProcessLists := aput s.ProcessLists ht pl }, pl)

/-- Write-through update of the process list stored at `ht`. -/
def plSet (s : State) (ht : Nat) (pl : ProcessList) : State :=
  { s with ProcessLists := aput s.ProcessLists ht pl }

/-- Read through the `s.LeaderPL` pointer: unlike `ProcessLists.Get` this
performs no allocation, mirroring a plain Go pointer dereference. -/
def plPeek (s : State) (ht : Nat) : ProcessList :=
  (aget s.ProcessLists ht).getD (plNew s ht)

/-- Modelled from the spec: `s.DBStates.Get(ht)` / `s.GetDBState(ht)`
retrieval from the append-only DBState ledger (dbStateManager code outside
src/), as a height-indexed lookup. -/
def GetDBState (s : State) (ht : Nat) : Option DBState :=
  aget s.DBStates ht

/-- Modelled from the spec: `ProcessList.GetAckAt(vmIndex, h)` returns the
acknowledgement recorded at slot `h` of VM `vmIndex` (processList.go is
outside src/). -/
def ProcessList.GetAckAt (pl : ProcessList) (vmIndex h : Nat) : Ack :=
  (pl.VMs.getD vmIndex {}).ListAck.getD h {}

/-- Lookup in the commit registry (`s.Commits.Get`, a map from entry hash
to the best commit message). -/
def commitsGet (s : State) (h : HashV) : Option CommitMsg :=
  aget s.Commits h

/-- `State.IsHighestCommit` (src lines 2072-2088): the new commit loses only
against an existing stored commit of the same variant whose credits are
greater than or equal; in every other case the function returns true. -/
def IsHighestCommit (s : State) (h : HashV) (msg : CommitMsg) : Bool :=
  match commitsGet s h, msg with
  | some (.commitEntryM e), .commitEntryM m => if e ≥ m then false else true
  | some (.commitChainM ec), .commitChainM mc => if ec ≥ mc then false else true
  | _, _ => true

/-- `State.PutCommit` (src lines 2090-2094): store the commit only when it
is the highest. -/
def PutCommit (s : State) (h : HashV) (msg : CommitMsg) : State :=
  if IsHighestCommit s h msg then
    { s with Commits := aput s.Commits h msg }
  else s

/-- `State.NewAck` (src lines 2234-2261).  Returns the message stamped with
the leader chain id together with the freshly built acknowledgement.  The
salt and signature stamping are external crypto and not modelled. -/
def NewAck (s : State) (m : Msg) (balanceHash : Option HashV) :
    State × Msg × Ack :=
  let vmIndex := m.VMIndex
  let m := { m with LeaderChainID := s.IdentityChainID }
  let sp := plGetPair s s.LLeaderHeight
  let s := sp.1
  let plAtLL := sp.2
  let base : Ack :=
    { DBHeight := s.LLeaderHeight
      VMIndex := vmIndex
      Minute := (plAtLL.VMs.getD vmIndex {}).LeaderMinute
      Timestamp := s.now
      MessageHash := m.MsgHash
      LeaderChainID := s.IdentityChainID
      BalanceHash := balanceHash }
  let lpl := plPeek s s.LeaderPLHeight
  let listlen := (lpl.VMs.getD vmIndex {}).MsgList.length
  if listlen = 0 then
    (s, m, { base with Height := 0, SerialHash := base.MessageHash })
  else
    let last := lpl.GetAckAt vmIndex (listlen - 1)
    (s, m, { base with
              Height := last.Height + 1
              SerialHash := CreateHash last.MessageHash base.MessageHash })

/-- `CheckDBKeyMR` (src lines 249-259): checkpoint verification, which is a
no-op unless the configured network is MAIN. -/
def CheckDBKeyMR (s : State) (ht : Nat) (hash : String) : Option String :=
  if s.Network ≠ "MAIN" ∧ s.Network ≠ "main" then none
  else
    match aget s.env.CheckPoints ht with
    | some val =>
        if val ≠ hash then
          some (s.FactomNodeName ++ " CheckPoints at " ++ toString ht ++
                " DB height failed")
        else none
    | none => none

/-- Modelled from the spec: `s.DBStates.NewDBState` (DBState ledger code is
outside src/) constructs a snapshot of the given blocks with every save
flag clear, `IsNew` as given, records it in the ledger at the directory
block height, and may fail returning nil (switched by `env.newDBStateOK`),
which `AddDBState` propagates. -/
def newSnapshot (isNew : Bool) (dB : DBlock) (aB : Nat) (fB : FBlock)
    (ecB : Nat) (eBlocks : List Nat) (entries : List Nat) : DBState :=
  { DirectoryBlock := dB, AdminBlock := aB, FactoidBlock := fB
    EntryCreditBlock := ecB, EBlocks := eBlocks, Entries := entries
    IsNew := isNew }

def newDBState (s : State) (isNew : Bool) (dB : DBlock) (aB : Nat)
    (fB : FBlock) (ecB : Nat) (eBlocks : List Nat) (entries : List Nat) :
    State × Option DBState :=
  if s.env.newDBStateOK then
    let dbs := newSnapshot isNew dB aB fB ecB eBlocks entries
    ({ s with DBStates := aput s.DBStates dB.DBHeight dbs }, some dbs)
  else (s, none)

/-- The `ht > s.LLeaderHeight` branch of `AddDBState` (src lines 407-436):
reset the sync flags, advance the leader height, allocate the next process
list, wipe the temporary balances of the leader process list, recompute
leadership and pump `ProcessLists.UpdateState`. -/
def addDBStateAdvance (s : State) (ht : Nat) : State :=
  let s := { s with Syncing := false, EOM := false, DBSig := false
                    LLeaderHeight := ht }
  let (s, _) := plGetPair s (ht + 1)
  let s := { s with CurrentMinute := 0, EOMProcessed := 0, DBSigProcessed := 0
                    StartDelay := s.now, RunLeader := false
                    LeaderPLHeight := ht }
  let (s, lpl) := plGetPair s s.LeaderPLHeight
  let s := plSet s s.LeaderPLHeight
      { lpl with FactoidBalancesT := [], ECBalancesT := [] }
  let gv := s.env.getVirtualServers s.LeaderPLHeight s.CurrentMinute
  let s := { s with Leader := gv.1, LeaderVMIndex := gv.2 }
  { s with trace := s.trace ++ [Event.plUpdateStateEv ht] }

/-- `State.AddDBState` (src lines 384-442).  A checkpoint mismatch is the
Go `panic`, modelled as `Except.error` carrying the panic message. -/
def AddDBState (s : State) (isNew : Bool) (dB : DBlock) (aB : Nat)
    (fB : FBlock) (ecB : Nat) (eBlocks : List Nat) (entries : List Nat) :
    Except String (State × Option DBState) :=
  let (s, odbs) := newDBState s isNew dB aB fB ecB eBlocks entries
  match odbs with
  | none => .ok (s, none)
  | some dbState =>
      let ht := dbState.DirectoryBlock.DBHeight
      let keyMR := dbState.DirectoryBlock.KeyMR
      match CheckDBKeyMR s ht keyMR with
      | some _ =>
          .error ("Found block at height " ++ toString ht ++
                  " that didn\x27t match a checkpoint" ++ ". Got " ++ keyMR ++
                  ", expected " ++ ((aget s.env.CheckPoints ht).getD ""))
      | none =>
          let s := if ht > s.LLeaderHeight then addDBStateAdvance s ht else s
          let s := if ht = 0 ∧ s.LLeaderHeight < 1 then
              { s with LLeaderHeight := 1 }
            else s
          .ok (s, some dbState)

/-- `State.CheckForIDChange` (src lines 1557-1574): reload the identity
from the configuration file once the leader height passes `AckChange`.
Reading the file and re-deriving the server keys are external. -/
def CheckForIDChange (s : State) : State :=
  if s.AckChange > 0 ∧ s.LLeaderHeight ≥ s.AckChange then
    { s with IdentityChainID := s.env.configIdentityChainID
             trace := s.trace ++ [Event.reloadIdentityEv] }
  else s

/-- Modelled from the spec: `ProcessList.AddToProcessList(ack, m)` records
the `(Ack, Msg)` pair at slot `Ack.Height` of VM `Ack.VMIndex` (invariant 1
of the spec data model; processList.go is outside src/).  Duplicate and
signature handling of the real implementation are not modelled. -/
def AddToProcessList (s : State) (ht : Nat) (ack : Ack) (m : Msg) : State :=
  let (s, pl) := plGetPair s ht
  let vm := pl.VMs.getD ack.VMIndex {}
  let vm := { vm with
      MsgList := (padTo vm.MsgList ack.Height (HashV.raw 0)).set ack.Height m.MsgHash
      ListAck := (padTo vm.ListAck ack.Height {}).set ack.Height ack }
  plSet s ht { pl with VMs := pl.VMs.set ack.VMIndex vm }

/-- `State.FollowerExecuteMsg` (src lines 448-461): hold the message and,
when a matching acknowledgement is already cached, stamp the message and
append the pair to the process list of the acknowledgement height. -/
def FollowerExecuteMsg (s : State) (m : Msg) : State :=
  let s := { s with Holding := aput s.Holding m.MsgHash m }
  match aget s.Acks m.MsgHash with
  | none => s
  | some ack =>
      let m := { m with LeaderChainID := ack.LeaderChainID, Minute := ack.Minute }
      let (s, _) := plGetPair s ack.DBHeight
      AddToProcessList s ack.DBHeight ack m

/-- `State.LeaderExecute` (src lines 924-938): generic leader execution;
replay recheck, build an acknowledgement, stamp the message, append. -/
def LeaderExecute (s : State) (m : Msg) : State :=
  if !(s.Replay.validB m.RepeatHash) then
    { s with Holding := adel s.Holding m.MsgHash }
  else
    let (s, m, ack) := NewAck s m none
    let m := { m with LeaderChainID := ack.LeaderChainID, Minute := ack.Minute }
    let (s, _) := plGetPair s ack.DBHeight
    AddToProcessList s ack.DBHeight ack m

/-- `State.ExecuteEntriesInDBState` (src lines 511-545): the body performs
only database reads and batched entry writes (storage interface, outside
the consensus state); it is recorded as a trace event. -/
def ExecuteEntriesInDBState (s : State) (m : DBStateMsg) : State :=
  { s with trace := s.trace ++ [Event.executeEntriesEv m.DirectoryBlock.DBHeight] }

/-- `cntFail` of `FollowerExecuteDBState`: the ignore counter moves only
for dbstates that did not come from the local database. -/
def cntFail (s : State) (m : DBStateMsg) : State :=
  if !m.IsInDB then { s with DBStateIgnoreCnt := s.DBStateIgnoreCnt + 1 } else s

/-- The `case 0` buffering path of `FollowerExecuteDBState` (src lines
570-591): rebase the sliding `DBStatesReceived` window against the highest
saved block, then record the message at its index (entries-only ingestion
when the index falls behind the base). -/
def bufferDBStateMsg (s : State) (m : DBStateMsg) (dbheight : Nat) : State :=
  let s :=
    if s.DBStatesReceivedBase < (s.HighestSaved : Int) then
      let cut : Int := (s.HighestSaved : Int) - s.DBStatesReceivedBase
      let s :=
        if (s.DBStatesReceived.length : Int) > cut then
          { s with DBStatesReceived := s.DBStatesReceived.drop cut.toNat }
        else s
      { s with DBStatesReceivedBase := s.DBStatesReceivedBase + cut }
    else s
  let ix : Int := (dbheight : Int) - s.DBStatesReceivedBase
  if ix < 0 then ExecuteEntriesInDBState s m
  else
    let padded := s.DBStatesReceived ++
      List.replicate (ix.toNat + 1 - s.DBStatesReceived.length) none
    { s with DBStatesReceived := padded.set ix.toNat (some m) }

/-- The factoid-replay scan condition of `FollowerExecuteDBState` (src
lines 626-640): some non-coinbase transaction of the block fails the
BLOCK_REPLAY check while the height sits in the scanned windows
(`0 < h < 2000` or `h > 100000`). -/
def scanRejectB (fr : ReplayFilter) (m : DBStateMsg) : Bool :=
  m.FactoidBlock.Transactions.enum.any (fun p =>
    decide (p.1 > 0) &&
    ((decide (m.DirectoryBlock.DBHeight > 0) &&
      decide (m.DirectoryBlock.DBHeight < 2000)) ||
     decide (m.DirectoryBlock.DBHeight > 100000)) &&
    !(fr.validB p.2.sigHash))

/-- Seal every transaction of the factoid block into BLOCK_REPLAY (src
lines 644-650). -/
def sealBlockReplay (fr : ReplayFilter) (m : DBStateMsg) : ReplayFilter :=
  m.FactoidBlock.Transactions.foldl (fun r fct => r.isTSValid fct.sigHash) fr

/-- The TrimBack step of `FollowerExecuteDBState` (src lines 605-611):
when the height is inside the process-list window and the preceding DBState
carries a SaveStruct, roll the temporary state back (an external storage
effect, recorded as an event); a missing preceding DBState is the Go nil
dereference. -/
def trimBackStep (s : State) (dbheight : Nat) : Except String State :=
  if dbheight > 1 ∧ dbheight ≥ s.ProcessListsDBHeightBase then
    match GetDBState s (u32pred dbheight) with
    | some p =>
        if p.SaveStructSome then
          .ok { s with trace := s.trace ++ [Event.trimBackEv dbheight] }
        else .ok s
    | none => .error "nil pointer dereference"
  else .ok s

/-- The application tail of `FollowerExecuteDBState` once the scan accepts
the block (src lines 644-693): seal the factoid transactions into
BLOCK_REPLAY, flag the snapshot, clear the sync state, update the catchup
window and save the state for local messages. -/
def dbstateApplyTail (s : State) (m : DBStateMsg) (dbheight : Nat) :
    Except String State :=
  let s := { s with FReplay := sealBlockReplay s.FReplay m }
  let s :=
    match aget s.DBStates dbheight with
    | none => s
    | some dbstate =>
        if !m.IsInDB then
          { s with
            DBStates := aput s.DBStates dbheight
              { dbstate with ReadyToSave := true, Locked := false
                             Signed := true }
            DBStateAppliedCnt := s.DBStateAppliedCnt + 1
            trace := s.trace ++ [Event.dbsUpdateStateEv] }
        else
          { s with
            DBStates := aput s.DBStates dbheight
              { dbstate with Saved := true, IsNew := false
                             Locked := false } }
  let s := { s with EOM := false, EOMDone := false, EOMSys := false
                    DBSig := false, DBSigDone := false
                    DBSigSys := false, Saving := true
                    Syncing := false }
  let s :=
    if s.DBStatesLastEnd < (dbheight : Int) then
      { s with trace := s.trace ++ [Event.catchupEv] }
    else s
  let s :=
    if s.DBStatesLastBegin < (dbheight : Int) + 1 then
      { s with DBStatesLastBegin := (dbheight : Int) }
    else s
  let s := { s with TimeToAskSome := false }
  if m.IsLocalF then
    if s.env.fastBoot then
      let s := { s with trace := s.trace ++ [Event.saveStateEv dbheight] }
      if s.env.saveFails then .error "SaveDBStateList failed"
      else .ok s
    else .ok s
  else .ok s

/-- `State.FollowerExecuteDBState` (src lines 547-695).  The panics of the
Go code (checkpoint mismatch inside `AddDBState`, state-save failure)
surface as `Except.error`. -/
def FollowerExecuteDBState (s : State) (m : DBStateMsg) :
    Except String State :=
  let dbheight := m.DirectoryBlock.DBHeight
  if dbheight > 0 ∧ dbheight ≤ s.HighestSaved ∧
      dbheight < s.EntryDBHeightComplete then
    .ok s
  else if m.ValidNextR = 0 then
    .ok (bufferDBStateMsg s m dbheight)
  else if m.ValidNextR = -1 then
    .ok (cntFail s m)
  else
    match trimBackStep s dbheight with
    | .error e => .error e
    | .ok s =>
    match AddDBState s false m.DirectoryBlock m.AdminBlock m.FactoidBlock
        m.EntryCreditBlock m.EBlocks m.Entries with
    | .error e => .error e
    | .ok (s, none) => .ok (cntFail s m)
    | .ok (s, some _) =>
        if scanRejectB s.FReplay m then .ok s
        else dbstateApplyTail s m dbheight

/-- `State.SendDBSig` (src lines 1287-1336).  The construction, signing and
leader execution of the directory block signature go through external
message code; the invocation is recorded as a trace event, and a signing
failure is the Go panic. -/
def SendDBSig (s : State) (dbheight vmIndex : Nat) : Except String State :=
  if dbheight ≤ s.HighestSaved ∨ s.EOM then .ok s
  else
    let sp := plGetPair s dbheight
    let s := sp.1
    let pl := sp.2
    let vm := pl.VMs.getD vmIndex {}
    if vm.Height > 0 then .ok s
    else
      let lv := s.env.getVirtualServers dbheight vm.LeaderMinute
      if !lv.1 || lv.2 ≠ vmIndex then .ok s
      else if !vm.Signed then
        if h : (GetDBState s (u32pred dbheight)).isNone ∧ 0 < dbheight then
          SendDBSig s (dbheight - 1) vmIndex
        else
          match GetDBState s (u32pred dbheight) with
          | none => .error "nil pointer dereference"
          | some _ =>
              if lv.2 = vmIndex then
                if !pl.DBSigAlreadySent then
                  if s.env.signFails then .error "sign failed"
                  else
                    let s := { s with
                        trace := s.trace ++ [Event.leaderExecDBSigEv dbheight true] }
                    let vm2 := { vm with Signed := true }
                    .ok (plSet s dbheight
                      { pl with VMs := pl.VMs.set vmIndex vm2
                                DBSigAlreadySent := true })
                else
                  .ok { s with
                        trace := s.trace ++ [Event.dbsigAskEv dbheight vmIndex] }
              else .ok s
      else .ok s
termination_by dbheight
decreasing_by exact Nat.sub_lt h.2 Nat.one_pos

/-- `State.SendHeartBeat` (src lines 1982-1999): a no-op without a previous
DBState; otherwise an outbound heartbeat (the audit-server filtering and
the send are external), recorded as a trace event. -/
def SendHeartBeat (s : State) : State :=
  match GetDBState s (u32pred s.LLeaderHeight) with
  | none => s
  | some _ => { s with trace := s.trace ++ [Event.heartbeatEv s.LLeaderHeight] }

/-- Modelled from the spec: `markNoFault(pl, vmIndex)` (fault.go is outside
src/) clears the fault countdown of the VM. -/
def markNoFaultVM (vm : VM) : VM :=
  { vm with WhenFaulted := 0 }

/-- The common tail of the EOM completion branch (src lines 1532-1548):
evict expired commits (external time window, recorded as an event) and drop
acknowledgements below the leader height. -/
def eomCompletionTail (s : State) : State :=
  let s := { s with trace := s.trace ++ [Event.removeExpiredEv] }
  { s with Acks := s.Acks.filter (fun p => decide (s.LLeaderHeight ≤ p.2.DBHeight)) }

/-- The tail of the minute-10 block close once the new DBState snapshot is
in hand (src lines 1481-1529): fix links, push the blocks, advance the
height and minute, recompute leadership, and emit this node DBSig for the
fresh block when it leads and none was sent. -/
def blockCloseFinish (s : State) (dbstate : DBState) : Except String State :=
  let dbht := dbstate.DirectoryBlock.DBHeight
  let s :=
    if dbht > 0 then
      { s with trace := s.trace ++ [Event.fixupLinksEv (dbht - 1) dbht] }
    else s
  let s := { s with trace := s.trace ++ [Event.processBlocksEv dbht] }
  let s := { s with CurrentMinute := 0
                    LLeaderHeight := s.LLeaderHeight + 1 }
  let s := { s with AckChange := s.env.ackChangeVal
                    trace := s.trace ++ [Event.getAckChangeEv] }
  let s := CheckForIDChange s
  let s := (plGetPair s s.LLeaderHeight).1
  let s := { s with LeaderPLHeight := s.LLeaderHeight }
  let gv := s.env.getVirtualServers s.LLeaderHeight 0
  let s := { s with Leader := gv.1, LeaderVMIndex := gv.2 }
  let s := { s with DBSigProcessed := 0 }
  let sp3 := plGetPair s s.LLeaderHeight
  let s := sp3.1
  let pldbs := sp3.2
  if s.Leader ∧ !pldbs.DBSigAlreadySent then
    if s.env.signFails then .error "sign failed"
    else
      let s := plSet s s.LLeaderHeight { pldbs with DBSigAlreadySent := true }
      let s := { s with
          trace := s.trace ++ [Event.leaderExecDBSigEv s.LLeaderHeight true] }
      .ok { s with Saving := true }
  else .ok { s with Saving := true }

/-- The minute-10 block close of `ProcessEOM` (src lines 1467-1529). -/
def processEOMBlockClose (s : State) (pl : ProcessList) :
    Except String State :=
  let eBlocks := pl.NewEBlocks
  let entries := pl.NewEntries
  let lpl := plPeek s s.LeaderPLHeight
  match AddDBState s true lpl.DirectoryBlock lpl.AdminBlock
      s.FactoidStateCurrentBlock lpl.EntryCreditBlock eBlocks entries with
  | .error e => .error e
  | .ok (s, od) =>
  let lpl2 := plPeek s s.LeaderPLHeight
  let odbs := match od with
    | some d => some d
    | none => GetDBState s lpl2.DirectoryBlock.DBHeight
  match odbs with
  | none => .error "nil pointer dereference"
  | some dbstate => blockCloseFinish s dbstate

/-- The minute-1 step of the EOM completion (src lines 1445-1453): mark
the previous DBState ready to save (a missing previous DBState is the Go
nil dereference). -/
def minuteOneSaveStep (s : State) (dbheight : Nat) : Except String State :=
  if s.CurrentMinute = 1 then
    match GetDBState s (u32pred dbheight) with
    | none => Except.error "nil pointer dereference"
    | some dbstate =>
        if !dbstate.Saved then
          Except.ok { s with DBStates := (aput s.DBStates
              (u32pred dbheight) { dbstate with ReadyToSave := true }) }
        else Except.ok s
  else Except.ok s

/-- The completion segment of `ProcessEOM` once all EOMs of the minute are
in (src lines 1422-1533): mark the sync done, post the minute markers and
the end-of-period notices, bump the minute (followers jump to the message
minute first), and either record the ReadyToSave flag (minute 1), close
the block (minute 10) or just run the expired-ack cleanup. -/
def eomCompletionAdvance (s : State) (dbheight : Nat) (pl : ProcessList)
    (e : EOMMsg) : Except String (State × Bool) :=
  let s := { s with EOMDone := true }
  let s := { s with trace := s.trace ++
      pl.NewEBlocks.map (fun eb => Event.minuteMarkerEv eb (e.Minute + 1)) }
  let s := { s with trace := s.trace ++ [Event.endOfPeriodEv e.Minute] }
  let s := { s with trace := s.trace ++ [Event.ecMinuteNumberEv (e.Minute + 1)] }
  let s := if !s.Leader then { s with CurrentMinute := e.Minute } else s
  let s := { s with CurrentMinute := s.CurrentMinute + 1 }
  if s.CurrentMinute < 10 then
    match minuteOneSaveStep s dbheight with
    | .error er => .error er
    | .ok s =>
        let s := (plGetPair s s.LLeaderHeight).1
        let s := { s with LeaderPLHeight := s.LLeaderHeight }
        let gv := s.env.getVirtualServers s.LLeaderHeight s.CurrentMinute
        let s := { s with Leader := gv.1, LeaderVMIndex := gv.2 }
        .ok (eomCompletionTail s, false)
  else if s.CurrentMinute = 10 then
    match processEOMBlockClose s pl with
    | .error er => .error er
    | .ok s => .ok (eomCompletionTail s, false)
  else .ok (eomCompletionTail s, false)

/-- The post-completion heartbeat branch of `ProcessEOM` (src lines
1361-1391): once the previous block is saved, count the sync down, reset
the flags when it reaches zero and send the heartbeat. -/
def eomDoneStep (s : State) (dbheight : Nat) : State × Bool :=
  match GetDBState s (u32pred dbheight) with
  | none => (s, false)
  | some dbstate =>
      if !dbstate.Saved then (s, false)
      else
        let s := { s with EOMProcessed := s.EOMProcessed - 1 }
        let s :=
          if s.EOMProcessed ≤ 0 then
            { s with EOM := false, EOMDone := false, Syncing := false
                     EOMProcessed := 0
                     TempBalanceHash := s.env.currentBalanceHash }
          else s
        (SendHeartBeat s, true)

/-- The opening branch of `ProcessEOM` (src lines 1393-1408): set the sync
window for the minute and clear every VM of the process list. -/
def eomOpenStep (s : State) (dbheight : Nat) (e : EOMMsg) : State :=
  let lpl := plPeek s s.LeaderPLHeight
  let s := { s with EOMSys := false, Syncing := true, EOM := true
                    EOMLimit := (lpl.FedServers.length : Int)
                    EOMMinute := (e.Minute : Int), EOMsyncing := true
                    EOMProcessed := 0 }
  let sp3 := plGetPair s dbheight
  let s := sp3.1
  let pl := sp3.2
  plSet s dbheight
    { pl with VMs := pl.VMs.map (fun v => { v with Synced := false }) }

/-- The per-VM sync branch of `ProcessEOM` (src lines 1410-1420): bump the
VM minute, count the EOM, mark the VM synced and unfaulted, and track the
highest reported system height on the leader process list. -/
def eomSyncStep (s : State) (dbheight : Nat) (e : EOMMsg) (pl : ProcessList)
    (vm : VM) : State :=
  let vm := { vm with LeaderMinute := vm.LeaderMinute + 1 }
  let s := { s with EOMProcessed := s.EOMProcessed + 1 }
  let vm := markNoFaultVM { vm with Synced := true }
  let s := plSet s dbheight { pl with VMs := pl.VMs.set e.VMIndex vm }
  let lpl := plPeek s s.LeaderPLHeight
  if lpl.SysHighest < (e.SysHeight : Int) then
    plSet s s.LeaderPLHeight { lpl with SysHighest := (e.SysHeight : Int) }
  else s

/-- `State.ProcessEOM` (src lines 1339-1555): the minute-advance state
machine.  Returns the Go boolean (message permanently processed) and turns
the panics reachable from the block close into `Except.error`. -/
def ProcessEOM (s : State) (dbheight : Nat) (e : EOMMsg) :
    Except String (State × Bool) :=
  if s.Syncing ∧ !s.EOM then .ok (s, false)
  else if s.EOM ∧ (e.Minute : Int) > s.EOMMinute then .ok (s, false)
  else
    let sp := plGetPair s dbheight
    let s := sp.1
    let pl := sp.2
    let vm := pl.VMs.getD e.VMIndex {}
    let s := if pl.SystemHeight ≥ (e.SysHeight : Int) then
        { s with EOMSys := true }
      else s
    if s.EOMDone ∧ s.EOMSys then .ok (eomDoneStep s dbheight)
    else if !s.EOM then .ok (eomOpenStep s dbheight e, false)
    else if !vm.Synced then .ok (eomSyncStep s dbheight e pl vm, false)
    else
      let lpl := plPeek s s.LeaderPLHeight
      let allfaults := lpl.SystemHeight ≥ lpl.SysHighest
      if allfaults ∧ s.EOMProcessed = s.EOMLimit ∧ !s.EOMDone then
        eomCompletionAdvance s dbheight pl e
      else .ok (s, false)

/-- Follower-side dispatch `msg.FollowerExecute(s)` for the embedded
message variants (the per-type method table lives in the external messages
package): DBState payloads run `FollowerExecuteDBState`, everything else
the generic `FollowerExecuteMsg`. -/
def followerDispatch (s : State) (m : Msg) : Except String State :=
  match m.Body with
  | .dbstateB d => FollowerExecuteDBState s d
  | .generic => .ok (FollowerExecuteMsg s m)

/-- Leader-side dispatch `msg.LeaderExecute(s)` for the embedded message
variants: DBState messages have no leader path and fall through to the
follower execution; generic messages run `LeaderExecute`. -/
def leaderDispatch (s : State) (m : Msg) : Except String State :=
  match m.Body with
  | .dbstateB d => FollowerExecuteDBState s d
  | .generic => .ok (LeaderExecute s m)

/-- `State.executeMsg` (src lines 38-94).  Returns the state, the message
(whose `VMIndex` and `SentInvalid` fields the Go code mutates in place)
and the progress boolean. -/
def executeMsg (s : State) (vmo : Option VM) (m : Msg) :
    Except String (State × Msg × Bool) :=
  if !(s.Replay.validB m.RepeatHash) then .ok (s, m, false)
  else
    let m := { m with VMIndex := s.env.computeVMIndex m.MsgHash m.VMIndex }
    if s.IgnoreMissing ∧ s.now > m.Timestamp + 60 * 15 then .ok (s, m, false)
    else if m.ValidateR = 1 then
      let lpl := plPeek s s.LeaderPLHeight
      let leaderReady := s.RunLeader && s.Leader && !s.Saving &&
        (match vmo with
         | some vm => decide (vm.Height = vm.MsgList.length)
         | none => false) &&
        (!s.Syncing || !(vmo.getD {}).Synced) &&
        (m.IsLocalF || decide (m.VMIndex = s.LeaderVMIndex)) &&
        decide (lpl.DBHeight + 1 ≥ s.HighestKnown)
      if leaderReady then
        if (vmo.getD {}).MsgList.length = 0 then
          match SendDBSig s s.LLeaderHeight s.LeaderVMIndex with
          | .error e => .error e
          | .ok s => .ok ({ s with XReview := s.XReview ++ [m] }, m, true)
        else
          match leaderDispatch s m with
          | .error e => .error e
          | .ok s => .ok (s, m, true)
      else
        match followerDispatch s m with
        | .error e => .error e
        | .ok s => .ok (s, m, true)
    else if m.ValidateR = 0 then
      .ok ({ s with Holding := aput s.Holding m.MsgHash m }, m, false)
    else
      let m2 := if m.SentInvalid then m else { m with SentInvalid := true }
      let s := { s with Holding := aput s.Holding m.MsgHash m2 }
      let s :=
        if m.SentInvalid then s
        else { s with invalidMsgQueue := s.invalidMsgQueue ++ [m2] }
      .ok (s, m2, false)

/-- Iterate `executeMsg` on the same (mutated-in-place) message, modelling
repeated executions of one message object across process-loop passes. -/
def execIter (s : State) (vmo : Option VM) (m : Msg) :
    Nat → Except String (State × Msg)
  | 0 => .ok (s, m)
  | n + 1 =>
      match executeMsg s vmo m with
      | .error e => .error e
      | .ok (s2, m2, _) => execIter s2 vmo m2 n

/-! ## Basic lemmas about the association-list maps -/

theorem aget_aput_self {κ β : Type} [DecidableEq κ] (l : List (κ × β))
    (k : κ) (v : β) : aget (aput l k v) k = some v := by
  simp [aget, aput, List.find?]

theorem aget_cons_ne {κ β : Type} [DecidableEq κ] (l : List (κ × β))
    (k k2 : κ) (v : β) (h : k ≠ k2) : aget ((k, v) :: l) k2 = aget l k2 := by
  simp [aget, List.find?, h]

theorem aget_filter_ne {κ β : Type} [DecidableEq κ] (l : List (κ × β))
    (k k2 : κ) (h : k ≠ k2) :
    aget (l.filter (fun p => !decide (p.1 = k))) k2 = aget l k2 := by
  have h2 : ¬(k2 = k) := fun e => h e.symm
  induction l with
  | nil => rfl
  | cons p t ih =>
      by_cases hp : p.1 = k
      · have hp2 : (decide (p.1 = k2)) = false := by simp [hp, h]
        simp [aget, List.filter_cons, hp, List.find?, hp2, h, h2] at *
        exact ih
      · by_cases hq : p.1 = k2
        · simp [aget, List.filter_cons, hp, List.find?, hq, h2]
        · simp [aget, List.filter_cons, hp, List.find?, hq, h2] at *
          exact ih

theorem aget_aput_ne {κ β : Type} [DecidableEq κ] (l : List (κ × β))
    (k k2 : κ) (v : β) (h : k ≠ k2) : aget (aput l k v) k2 = aget l k2 := by
  unfold aput
  rw [aget_cons_ne _ _ _ _ h, aget_filter_ne _ _ _ h]

theorem plPeek_insert (s : State) (ht ht2 : Nat)
    (hg : aget s.ProcessLists ht = none) :
    plPeek { s with ProcessLists := aput s.ProcessLists ht (plNew s ht) } ht2 =
      plPeek s ht2 := by
  by_cases he : ht = ht2
  · subst he
    simp [plPeek, aget_aput_self, hg, plNew]
  · simp [plPeek, aget_aput_ne _ _ _ _ he, plNew]

theorem plGetPair_fst_peek (s : State) (ht ht2 : Nat) :
    plPeek (plGetPair s ht).1 ht2 = plPeek s ht2 := by
  unfold plGetPair
  cases hg : aget s.ProcessLists ht with
  | some pl => rfl
  | none => exact plPeek_insert s ht ht2 hg

/-! ## C1: serial hash construction in NewAck -/

/-- A leader state whose VM 0 already holds two acknowledged messages,
built exactly the way the code itself builds them: slot 0 has
`SerialHash = MessageHash`, slot 1 chains, so slot 1's serial hash differs
from its message hash. -/
def exStateC1 : State :=
  { LLeaderHeight := 3
    LeaderPLHeight := 3
    ProcessLists :=
      [(3, { DBHeight := 3
             FedServers := [1]
             VMs := [{ MsgList := [.raw 10, .raw 11]
                       ListAck :=
                         [{ Height := 0, MessageHash := .raw 10
                            SerialHash := .raw 10 },
                          { Height := 1, MessageHash := .raw 11
                            SerialHash := .comb (.raw 10) (.raw 11) }] }] })] }

/-- C1, counterexample: on the concrete leader state `exStateC1` whose VM 0
list is non-empty (two chained slots), the acknowledgement built by `NewAck`
does NOT carry `H(prev.SerialHash ‖ M.MsgHash)`: the code hashes the
previous slot MessageHash, and slot 1 serial and message hashes differ. -/
theorem newAck_serialHash_not_chained_on_serial :
    ((plPeek exStateC1 exStateC1.LeaderPLHeight).VMs.getD 0 {}).MsgList.length ≠ 0 ∧
    (NewAck exStateC1 { MsgHash := .raw 12 } none).2.2.SerialHash ≠
      CreateHash
        ((plPeek exStateC1 exStateC1.LeaderPLHeight).GetAckAt 0
          (((plPeek exStateC1
              exStateC1.LeaderPLHeight).VMs.getD 0 {}).MsgList.length - 1)).SerialHash
        (HashV.raw 12) := by
  constructor
  · decide
  · decide

/-- C1, amended: the serial hash of an acknowledgement built by `NewAck` is
the message hash itself when the target VM list is empty, and otherwise the
hash of the previous slot MESSAGE hash (not its serial hash) concatenated
with the new message hash (src lines 2249-2257). -/
theorem newAck_serialHash_chains_prev_messageHash (s : State) (m : Msg)
    (bh : Option HashV) :
    (NewAck s m bh).2.2.SerialHash =
      (if ((plPeek s s.LeaderPLHeight).VMs.getD m.VMIndex {}).MsgList.length = 0
       then m.MsgHash
       else CreateHash
         ((plPeek s s.LeaderPLHeight).GetAckAt m.VMIndex
           (((plPeek s
               s.LeaderPLHeight).VMs.getD m.VMIndex {}).MsgList.length - 1)).MessageHash
         m.MsgHash) := by
  unfold NewAck
  have h1 : (plGetPair s s.LLeaderHeight).1.LeaderPLHeight = s.LeaderPLHeight := by
    unfold plGetPair
    cases hg : aget s.ProcessLists s.LLeaderHeight <;> rfl
  simp only [h1, plGetPair_fst_peek]
  split <;> rfl

/-! ## C2: checkpoint verification in AddDBState -/

/-- A node configured off the main network with a mismatching checkpoint. -/
def exStateC2 : State :=
  { Network := "LOCAL", env := { CheckPoints := [(10, "abcd")] } }

/-- A main-network node with the same mismatching checkpoint. -/
def exStateC2b : State :=
  { Network := "MAIN", env := { CheckPoints := [(10, "abcd")] } }

/-- C2, counterexample: with the network configured as LOCAL, a block whose
height has a checkpoint entry with a different KeyMR does NOT panic:
`AddDBState` returns normally (`CheckDBKeyMR` short-circuits off MAIN,
src lines 250-252). -/
theorem addDBState_checkpoint_mismatch_no_panic_off_main :
    aget exStateC2.env.CheckPoints 10 = some "abcd" ∧
    ("abcd" : String) ≠ "dead" ∧
    ∃ st od,
      AddDBState exStateC2 false { DBHeight := 10, KeyMR := "dead" } 0 {} 0 [] []
        = .ok (st, od) := by
  refine ⟨by decide, by decide, ?_⟩
  exact ⟨_, _, rfl⟩

/-- C2, amended: when the network is MAIN (or main) and the DBState ledger
accepts the blocks, a checkpoint entry whose value differs from the
directory block KeyMR makes `AddDBState` panic, and the panic message
contains `Found block at height <ht> that did not match a checkpoint`
(src lines 402-405). -/
theorem addDBState_checkpoint_mismatch_panics_on_main (s : State)
    (isNew : Bool) (dB : DBlock) (aB : Nat) (fB : FBlock) (ecB : Nat)
    (ebs ents : List Nat) (v : String)
    (hnet : s.Network = "MAIN" ∨ s.Network = "main")
    (hcp : aget s.env.CheckPoints dB.DBHeight = some v)
    (hne : v ≠ dB.KeyMR)
    (hok : s.env.newDBStateOK = true) :
    ∃ post,
      AddDBState s isNew dB aB fB ecB ebs ents =
        .error (("Found block at height " ++ toString dB.DBHeight ++
                 " that didn\x27t match a checkpoint") ++ post) := by
  refine ⟨". Got " ++ dB.KeyMR ++ ", expected " ++ v, ?_⟩
  unfold AddDBState newDBState newSnapshot CheckDBKeyMR
  simp only [hok, if_true]
  rcases hnet with hn | hn <;>
    (simp [hn, hcp, hne]
     rw [String.append_assoc ("Found block at height " ++ toString dB.DBHeight ++
           " that didn\x27t match a checkpoint") ". Got " dB.KeyMR,
         String.append_assoc ("Found block at height " ++ toString dB.DBHeight ++
           " that didn\x27t match a checkpoint") (". Got " ++ dB.KeyMR) ", expected ",
         String.append_assoc ("Found block at height " ++ toString dB.DBHeight ++
           " that didn\x27t match a checkpoint") (". Got " ++ dB.KeyMR ++ ", expected ") v])

/-- Witness for C2: the MAIN-network panic fires on the concrete mismatch at
height 10 (`abcd` vs `dead`). -/
theorem addDBState_checkpoint_mismatch_panics_on_main_witness :
    ∃ post,
      AddDBState exStateC2b false { DBHeight := 10, KeyMR := "dead" } 0 {} 0 [] []
        = .error (("Found block at height " ++ toString (10 : Nat) ++
                   " that didn\x27t match a checkpoint") ++ post) :=
  addDBState_checkpoint_mismatch_panics_on_main exStateC2b false
    { DBHeight := 10, KeyMR := "dead" } 0 {} 0 [] [] "abcd"
    (Or.inl rfl) (by decide) (by decide) rfl

/-! ## C4: commit registry, highest-credit-wins -/

/-- C4: `PutCommit` stores the message exactly when `IsHighestCommit` holds,
and `IsHighestCommit` returns false precisely when the commit already stored
under the hash has the same variant as the new one and credits greater than
or equal to the new commit credits (src lines 2072-2094). -/
theorem putCommit_stores_iff_highest (s : State) (h : HashV) (m : CommitMsg) :
    PutCommit s h m =
      (if IsHighestCommit s h m then { s with Commits := aput s.Commits h m }
       else s) ∧
    (IsHighestCommit s h m = false ↔
      ((∃ c c2, commitsGet s h = some (CommitMsg.commitEntryM c) ∧
          m = CommitMsg.commitEntryM c2 ∧ c2 ≤ c) ∨
       (∃ c c2, commitsGet s h = some (CommitMsg.commitChainM c) ∧
          m = CommitMsg.commitChainM c2 ∧ c2 ≤ c))) := by
  refine ⟨rfl, ?_⟩
  unfold IsHighestCommit
  cases hg : commitsGet s h with
  | none => cases m <;> simp [hg]
  | some c =>
      cases c <;> cases m <;> simp [hg] <;> split <;> simp_all <;> omega

/-! ## C9: the INTERNAL_REPLAY gate of executeMsg -/

/-- C9: a message whose repeat hash fails the INTERNAL_REPLAY filter is
dropped by `executeMsg` with no change whatsoever: the very same state and
message come back with progress `false` (src lines 40-44). -/
theorem executeMsg_replay_invalid_noop (s : State) (vmo : Option VM) (m : Msg)
    (h : s.Replay.validB m.RepeatHash = false) :
    executeMsg s vmo m = .ok (s, m, false) := by
  unfold executeMsg
  simp [h]

/-- A state whose INTERNAL_REPLAY filter has already seen hash 7. -/
def exStateC9 : State := { Replay := { seen := [.raw 7] } }

/-- A replayed message: its repeat hash is already in the filter. -/
def exMsgC9 : Msg := { MsgHash := .raw 8, RepeatHash := .raw 7, ValidateR := 1 }

/-- Witness for C9 on a concrete replayed message. -/
theorem executeMsg_replay_invalid_noop_witness :
    executeMsg exStateC9 none exMsgC9 = .ok (exStateC9, exMsgC9, false) :=
  executeMsg_replay_invalid_noop exStateC9 none exMsgC9 (by decide)

/-! ## C10: AddDBState at heights at or below the leader height -/

/-- `CheckDBKeyMR` only reads the network name and the checkpoint table, so
it is unaffected by the ledger insertion done by `NewDBState`. -/
theorem checkDBKeyMR_update_dbstates (s : State) (x : List (Nat × DBState))
    (ht : Nat) (k : String) :
    CheckDBKeyMR { s with DBStates := x } ht k = CheckDBKeyMR s ht k := rfl

/-- C10: when the new block height does not exceed `LLeaderHeight` (and the
ledger accepts it without checkpoint panic), `AddDBState` returns normally,
leaves `CurrentMinute`, `Syncing`, `EOM` and `DBSig` untouched, and leaves
`LLeaderHeight` unchanged except in the genesis case: height 0 while
`LLeaderHeight < 1` forces `LLeaderHeight = 1` (src lines 407-439). -/
theorem addDBState_low_height (s : State) (isNew : Bool) (dB : DBlock)
    (aB : Nat) (fB : FBlock) (ecB : Nat) (ebs ents : List Nat)
    (hcp : CheckDBKeyMR s dB.DBHeight dB.KeyMR = none)
    (hok : s.env.newDBStateOK = true)
    (hle : dB.DBHeight ≤ s.LLeaderHeight) :
    ∃ st od, AddDBState s isNew dB aB fB ecB ebs ents = .ok (st, od) ∧
      st.LLeaderHeight =
        (if dB.DBHeight = 0 ∧ s.LLeaderHeight < 1 then 1 else s.LLeaderHeight) ∧
      st.CurrentMinute = s.CurrentMinute ∧ st.Syncing = s.Syncing ∧
      st.EOM = s.EOM ∧ st.DBSig = s.DBSig := by
  unfold AddDBState newDBState newSnapshot
  simp only [hok, if_true]
  have hgt : ¬(dB.DBHeight > s.LLeaderHeight) := not_lt.mpr hle
  simp only [checkDBKeyMR_update_dbstates, hcp, hgt, if_false]
  by_cases hc : dB.DBHeight = 0 ∧ s.LLeaderHeight < 1
  · simp only [if_pos hc]
    exact ⟨_, _, rfl, rfl, rfl, rfl, rfl, rfl⟩
  · simp only [if_neg hc]
    exact ⟨_, _, rfl, rfl, rfl, rfl, rfl, rfl⟩

/-- Witness for C10: on a fresh state (leader height 0) a genesis block at
height 0 bumps the leader height to 1 while leaving the minute and flags. -/
theorem addDBState_low_height_witness :
    ∃ st od,
      AddDBState {} false { DBHeight := 0, KeyMR := "x" } 0 {} 0 [] []
        = .ok (st, od) ∧
      st.LLeaderHeight =
        (if (0 : Nat) = 0 ∧ (State.LLeaderHeight {}) < 1 then 1
         else State.LLeaderHeight {}) ∧
      st.CurrentMinute = State.CurrentMinute {} ∧
      st.Syncing = State.Syncing {} ∧
      st.EOM = State.EOM {} ∧ st.DBSig = State.DBSig {} :=
  addDBState_low_height {} false { DBHeight := 0, KeyMR := "x" } 0 {} 0 [] []
    rfl rfl (by decide)

/-! ## C8: validate = -1 pushes to the invalid queue exactly once -/

/-- One execution of a message whose `Validate` verdict is `-1` (replay and
boot gates passing): the message is held, flagged, and appended to the
invalid queue only when the flag was not yet set (src lines 79-87). -/
theorem executeMsg_invalid_step (s : State) (vmo : Option VM) (m : Msg)
    (hrep : s.Replay.validB m.RepeatHash = true)
    (hig : s.IgnoreMissing = false)
    (hval : m.ValidateR = -1) :
    ∃ m2,
      executeMsg s vmo m =
        .ok ({ s with
                Holding := aput s.Holding m.MsgHash m2
                invalidMsgQueue :=
                  if m.SentInvalid then s.invalidMsgQueue
                  else s.invalidMsgQueue ++ [m2] }, m2, false) ∧
      m2 = { m with VMIndex := s.env.computeVMIndex m.MsgHash m.VMIndex
                    SentInvalid := true } := by
  unfold executeMsg
  simp [hrep, hig, hval]
  by_cases hs : m.SentInvalid <;> simp [hs]

/-- Iterating `executeMsg` on an already-flagged invalid message never
touches the invalid queue again. -/
theorem execIter_flagged_no_enqueue (vmo : Option VM) :
    ∀ (n : Nat) (s : State) (m : Msg),
      s.Replay.validB m.RepeatHash = true →
      s.IgnoreMissing = false →
      m.ValidateR = -1 →
      m.SentInvalid = true →
      ∃ s2 m2, execIter s vmo m n = .ok (s2, m2) ∧
        m2.SentInvalid = true ∧ m2.MsgHash = m.MsgHash ∧
        s2.invalidMsgQueue = s.invalidMsgQueue ∧
        (n = 0 → s2 = s ∧ m2 = m) ∧
        (1 ≤ n → aget s2.Holding m.MsgHash = some m2) := by
  intro n
  induction n with
  | zero =>
      intro s m _ _ _ hsent
      exact ⟨s, m, rfl, hsent, rfl, rfl, fun _ => ⟨rfl, rfl⟩,
             fun hh => absurd hh (by omega)⟩
  | succ k ih =>
      intro s m hrep hig hval hsent
      obtain ⟨m2, hstep, hm2⟩ := executeMsg_invalid_step s vmo m hrep hig hval
      set s1 : State :=
        { s with Holding := aput s.Holding m.MsgHash m2
                 invalidMsgQueue :=
                   if m.SentInvalid then s.invalidMsgQueue
                   else s.invalidMsgQueue ++ [m2] } with hs1
      have hrep1 : s1.Replay.validB m2.RepeatHash = true := by
        subst hm2; exact hrep
      have hig1 : s1.IgnoreMissing = false := hig
      have hval1 : m2.ValidateR = -1 := by subst hm2; exact hval
      have hsent1 : m2.SentInvalid = true := by subst hm2; rfl
      have hhash : m2.MsgHash = m.MsgHash := by subst hm2; rfl
      obtain ⟨s3, m3, hiter, hm3sent, hm3hash, hq, hz, hpos⟩ :=
        ih s1 m2 hrep1 hig1 hval1 hsent1
      refine ⟨s3, m3, ?_, hm3sent, by rw [hm3hash, hhash], ?_, ?_, ?_⟩
      · show execIter s vmo m (k+1) = .ok (s3, m3)
        unfold execIter
        rw [hstep]
        exact hiter
      · rw [hq, hs1]
        simp [hsent]
      · intro h01
        exact absurd h01 (by omega)
      · intro _
        rcases Nat.eq_zero_or_pos k with hk | hk
        · subst hk
          obtain ⟨hs3, hm3⟩ := hz rfl
          subst hs3; subst hm3
          rw [hs1]
          simp only []
          rw [← hhash]
          exact aget_aput_self _ _ _
        · have := hpos hk
          rw [hhash] at this
          exact this

/-- C8: across any positive number of executions of one message whose
`Validate` verdict is `-1` (replay and boot gates passing, flag initially
clear), the message ends up in Holding with `SentInvalid` set and the
invalid queue receives EXACTLY ONE copy: the first execution flags and
enqueues, every later execution sees the flag and does not enqueue. -/
theorem executeMsg_invalid_enqueues_exactly_once (s : State) (vmo : Option VM)
    (m : Msg) (n : Nat) (hn : 1 ≤ n)
    (hrep : s.Replay.validB m.RepeatHash = true)
    (hig : s.IgnoreMissing = false)
    (hval : m.ValidateR = -1)
    (hsent : m.SentInvalid = false) :
    ∃ s2 m2, execIter s vmo m n = .ok (s2, m2) ∧
      m2.SentInvalid = true ∧
      s2.invalidMsgQueue = s.invalidMsgQueue ++
        [{ m with VMIndex := s.env.computeVMIndex m.MsgHash m.VMIndex
                  SentInvalid := true }] ∧
      ∃ mh, aget s2.Holding m.MsgHash = some mh ∧ mh.SentInvalid = true := by
  obtain ⟨k, rfl⟩ : ∃ k, n = k + 1 := ⟨n - 1, by omega⟩
  obtain ⟨m2, hstep, hm2⟩ := executeMsg_invalid_step s vmo m hrep hig hval
  set s1 : State :=
    { s with Holding := aput s.Holding m.MsgHash m2
             invalidMsgQueue :=
               if m.SentInvalid then s.invalidMsgQueue
               else s.invalidMsgQueue ++ [m2] } with hs1
  have hrep1 : s1.Replay.validB m2.RepeatHash = true := by subst hm2; exact hrep
  have hval1 : m2.ValidateR = -1 := by subst hm2; exact hval
  have hsent1 : m2.SentInvalid = true := by subst hm2; rfl
  have hhash : m2.MsgHash = m.MsgHash := by subst hm2; rfl
  obtain ⟨s3, m3, hiter, hm3sent, hm3hash, hq, hz, hpos⟩ :=
    execIter_flagged_no_enqueue vmo k s1 m2 hrep1 hig hval1 hsent1
  refine ⟨s3, m3, ?_, hm3sent, ?_, ?_⟩
  · show execIter s vmo m (k+1) = .ok (s3, m3)
    unfold execIter
    rw [hstep]
    exact hiter
  · rw [hq, hs1]
    simp [hsent, hm2]
  · rcases Nat.eq_zero_or_pos k with hk | hk
    · subst hk
      obtain ⟨hs3, hm3⟩ := hz rfl
      refine ⟨m3, ?_, by rw [hm3]; exact hsent1⟩
      rw [hs3, hs1, hm3]
      exact aget_aput_self _ _ _
    · refine ⟨m3, ?_, hm3sent⟩
      have := hpos hk
      rw [hhash] at this
      exact this

/-- A message rejected forever by its validator. -/
def exMsgC8 : Msg := { MsgHash := .raw 5, RepeatHash := .raw 6, ValidateR := -1 }

/-- Witness for C8: two executions of a concrete invalid message on a fresh
state still enqueue exactly one copy. -/
theorem executeMsg_invalid_enqueues_exactly_once_witness :
    ∃ s2 m2, execIter {} none exMsgC8 2 = .ok (s2, m2) ∧
      m2.SentInvalid = true ∧
      s2.invalidMsgQueue = State.invalidMsgQueue {} ++
        [{ exMsgC8 with
            VMIndex := (State.env {}).computeVMIndex exMsgC8.MsgHash exMsgC8.VMIndex
            SentInvalid := true }] ∧
      ∃ mh, aget s2.Holding exMsgC8.MsgHash = some mh ∧ mh.SentInvalid = true :=
  executeMsg_invalid_enqueues_exactly_once {} none exMsgC8 2 (by omega)
    (by decide) rfl rfl rfl

/-! ## C5: opening of the EOM synchronization window -/

/-- C5: the first EOM of a new minute (EOM flag clear, not syncing another
phase, completion not pending) opens the window: `EOMSys=false`,
`Syncing=true`, `EOM=true`, `EOMLimit=|FedServers|` of the leader process
list, `EOMMinute=msg.Minute`, `EOMProcessed=0`, every VM of the process
list at `dbheight` unsynced, and the call returns false (src 1393-1408). -/
theorem processEOM_opening (s : State) (dbheight : Nat) (e : EOMMsg)
    (hEOM : s.EOM = false) (hSync : s.Syncing = false)
    (hDone : s.EOMDone = false) :
    ∃ s2, ProcessEOM s dbheight e = .ok (s2, false) ∧
      s2.EOMSys = false ∧ s2.Syncing = true ∧ s2.EOM = true ∧
      s2.EOMLimit = ((plPeek s s.LeaderPLHeight).FedServers.length : Int) ∧
      s2.EOMMinute = (e.Minute : Int) ∧ s2.EOMProcessed = 0 ∧
      ∀ vm ∈ (plPeek s2 dbheight).VMs, vm.Synced = false := by
  unfold ProcessEOM
  unfold plGetPair
  cases hg : aget s.ProcessLists dbheight with
  | some pl =>
      by_cases hsys : pl.SystemHeight ≥ (e.SysHeight : Int) <;>
        (simp [hg, hEOM, hSync, hDone, hsys, eomOpenStep, plGetPair, plSet,
          plPeek, plNew, aget_aput_self])
  | none =>
      by_cases hsys : (e.SysHeight : Int) ≤ 0 <;>
        (simp [hg, hEOM, hSync, hDone, hsys, eomOpenStep, plGetPair, plSet,
          plPeek, plNew, aget_aput_self]
         by_cases he : dbheight = s.LeaderPLHeight
         · subst he
           simp [aget_aput_self, hg]
         · simp [aget_aput_ne _ _ _ _ he])

/-- A three-federated-server leader state about to receive the first EOM of
minute 0 at height 7. -/
def exStateC5 : State :=
  { LLeaderHeight := 7
    LeaderPLHeight := 7
    ProcessLists :=
      [(7, { DBHeight := 7
             FedServers := [1, 2, 3]
             VMs := [{ Synced := true }, { Synced := true }, {}] })] }

/-- Witness for C5 on the concrete three-server state. -/
theorem processEOM_opening_witness :
    ∃ s2, ProcessEOM exStateC5 7 { VMIndex := 0, Minute := 0 } = .ok (s2, false) ∧
      s2.EOMSys = false ∧ s2.Syncing = true ∧ s2.EOM = true ∧
      s2.EOMLimit = ((plPeek exStateC5 exStateC5.LeaderPLHeight).FedServers.length : Int) ∧
      s2.EOMMinute = ((0 : Nat) : Int) ∧ s2.EOMProcessed = 0 ∧
      ∀ vm ∈ (plPeek s2 7).VMs, vm.Synced = false :=
  processEOM_opening exStateC5 7 { VMIndex := 0, Minute := 0 } rfl rfl rfl

/-! ## C3: the factoid double-spend scan of FollowerExecuteDBState -/

theorem addDBStateAdvance_preserves (s : State) (ht : Nat) :
    (addDBStateAdvance s ht).FReplay = s.FReplay ∧
    (addDBStateAdvance s ht).DBStates = s.DBStates ∧
    (addDBStateAdvance s ht).LLeaderHeight = ht := by
  simp only [addDBStateAdvance, plGetPair, plSet]
  split <;> (try split) <;> simp

theorem trimBackStep_ok (s : State) (h : Nat) (pdb : DBState)
    (hpdb : GetDBState s (u32pred h) = some pdb) :
    ∃ s1, trimBackStep s h = .ok s1 ∧ s1.env = s.env ∧ s1.Network = s.Network ∧
      s1.FactomNodeName = s.FactomNodeName ∧
      s1.FReplay = s.FReplay ∧ s1.DBStates = s.DBStates ∧
      s1.LLeaderHeight = s.LLeaderHeight := by
  unfold trimBackStep
  by_cases hc : h > 1 ∧ h ≥ s.ProcessListsDBHeightBase
  · rw [if_pos hc]
    simp only [hpdb]
    by_cases hsv : pdb.SaveStructSome = true
    · rw [if_pos hsv]
      exact ⟨_, rfl, rfl, rfl, rfl, rfl, rfl, rfl⟩
    · rw [if_neg hsv]
      exact ⟨_, rfl, rfl, rfl, rfl, rfl, rfl, rfl⟩
  · rw [if_neg hc]
    exact ⟨_, rfl, rfl, rfl, rfl, rfl, rfl, rfl⟩

theorem checkDBKeyMR_congr (s1 s : State) (ht : Nat) (k : String)
    (hN : s1.Network = s.Network) (hF : s1.FactomNodeName = s.FactomNodeName)
    (hE : s1.env = s.env) :
    CheckDBKeyMR s1 ht k = CheckDBKeyMR s ht k := by
  unfold CheckDBKeyMR
  rw [hN, hF, hE]

/-- `AddDBState` on a state whose ledger accepts the blocks and whose
checkpoint check passes: it returns the fresh snapshot (save flags all
clear), records it in the ledger, never touches `FReplay`, and never lowers
the leader height. -/
theorem addDBState_ok_core (s : State) (isNew : Bool) (dB : DBlock) (aB : Nat)
    (fB : FBlock) (ecB : Nat) (ebs ents : List Nat)
    (hok : s.env.newDBStateOK = true)
    (hcp : CheckDBKeyMR s dB.DBHeight dB.KeyMR = none) :
    ∃ s3, AddDBState s isNew dB aB fB ecB ebs ents =
        .ok (s3, some (newSnapshot isNew dB aB fB ecB ebs ents)) ∧
      s3.FReplay = s.FReplay ∧
      aget s3.DBStates dB.DBHeight =
        some (newSnapshot isNew dB aB fB ecB ebs ents) ∧
      s.LLeaderHeight ≤ s3.LLeaderHeight := by
  unfold AddDBState newDBState
  simp only [hok, if_true, newSnapshot]
  simp only [checkDBKeyMR_update_dbstates, hcp]
  by_cases hgt : dB.DBHeight > s.LLeaderHeight
  · simp only [if_pos hgt]
    obtain ⟨hF, hD, hL⟩ := addDBStateAdvance_preserves
      { s with DBStates := (aput s.DBStates dB.DBHeight
          { DirectoryBlock := dB, AdminBlock := aB, FactoidBlock := fB
            EntryCreditBlock := ecB, EBlocks := ebs, Entries := ents
            IsNew := isNew }) }
      dB.DBHeight
    split
    · next hc0 =>
        exfalso
        rw [hL] at hc0
        omega
    · refine ⟨_, rfl, hF, ?_, ?_⟩
      · rw [hD]
        exact aget_aput_self _ _ _
      · rw [hL]
        exact le_of_lt hgt
  · simp only [if_neg hgt]
    split
    · next hc0 =>
        refine ⟨_, rfl, rfl, aget_aput_self _ _ _, ?_⟩
        simp only []
        omega
    · exact ⟨_, rfl, rfl, aget_aput_self _ _ _, le_refl _⟩

/-- C3, amended: inside the scanned windows `0 < h < 2000` (2000 itself is
excluded) or `h > 100000` — the range baked into `scanRejectB` — a block
with a non-coinbase transaction failing the BLOCK_REPLAY check is rejected
whole: `FollowerExecuteDBState` returns with the BLOCK_REPLAY filter
untouched and the freshly added DBState left unmarked (no ReadyToSave,
Signed or Saved), having returned before the sealing loop (src 626-650). -/
theorem followerExecuteDBState_scan_reject (s : State) (m : DBStateMsg)
    (pdb : DBState)
    (hnotold : ¬(m.DirectoryBlock.DBHeight > 0 ∧
        m.DirectoryBlock.DBHeight ≤ s.HighestSaved ∧
        m.DirectoryBlock.DBHeight < s.EntryDBHeightComplete))
    (hvn : m.ValidNextR = 1)
    (hpdb : GetDBState s (u32pred m.DirectoryBlock.DBHeight) = some pdb)
    (hok : s.env.newDBStateOK = true)
    (hcp : CheckDBKeyMR s m.DirectoryBlock.DBHeight m.DirectoryBlock.KeyMR = none)
    (hscan : scanRejectB s.FReplay m = true) :
    ∃ s2, FollowerExecuteDBState s m = .ok s2 ∧
      s2.FReplay = s.FReplay ∧
      (∀ d, aget s2.DBStates m.DirectoryBlock.DBHeight = some d →
        d.ReadyToSave = false ∧ d.Signed = false ∧ d.Saved = false) := by
  obtain ⟨s1, htrim, hE1, hN1, hF1, hFR1, hDB1, hLL1⟩ :=
    trimBackStep_ok s m.DirectoryBlock.DBHeight pdb hpdb
  obtain ⟨s3, hadd, hFR3, hDB3, hLL3⟩ :=
    addDBState_ok_core s1 false m.DirectoryBlock m.AdminBlock m.FactoidBlock
      m.EntryCreditBlock m.EBlocks m.Entries
      (by rw [hE1]; exact hok)
      (by rw [checkDBKeyMR_congr s1 s _ _ hN1 hF1 hE1]; exact hcp)
  have hscan3 : scanRejectB s3.FReplay m = true := by
    rw [hFR3, hFR1]
    exact hscan
  refine ⟨s3, ?_, by rw [hFR3, hFR1], ?_⟩
  · unfold FollowerExecuteDBState
    rw [if_neg hnotold]
    rw [hvn]
    rw [if_neg (by decide : ¬((1 : Int) = 0)), if_neg (by decide : ¬((1 : Int) = -1))]
    simp only [htrim, hadd, hscan3, if_true]
  · intro d hd
    rw [hDB3] at hd
    cases hd
    exact ⟨rfl, rfl, rfl⟩

/-- An off-main-network node whose BLOCK_REPLAY filter already contains the
signature hash 77, with block 1999 saved in its ledger. -/
def exStateC3 : State :=
  { Network := "LOCAL"
    FReplay := { seen := [.raw 77] }
    DBStates := [(1999, { DirectoryBlock := { DBHeight := 1999 }, Saved := true })] }

/-- A DBState message at height 2000 whose second (non-coinbase) factoid
transaction fails the BLOCK_REPLAY check. -/
def exMsgC3 : DBStateMsg :=
  { DirectoryBlock := { DBHeight := 2000, KeyMR := "k", Timestamp := 5 }
    FactoidBlock :=
      { Transactions := [{ sigHash := .raw 70, Timestamp := 1 },
                         { sigHash := .raw 77, Timestamp := 2 }] }
    ValidNextR := 1 }

/-- C3, counterexample: at height 2000 — inside the claimed range `1..2000`
— a block whose non-coinbase transaction fails BLOCK_REPLAY is NOT rejected:
`FollowerExecuteDBState` accepts it, marks the DBState ReadyToSave and
Signed, and seals the block transactions, because the source scans only
heights strictly below 2000 (src line 636). -/
theorem followerExecuteDBState_accepts_2000 :
    exMsgC3.DirectoryBlock.DBHeight = 2000 ∧
    exStateC3.FReplay.validB
      ((exMsgC3.FactoidBlock.Transactions.getD 1 {}).sigHash) = false ∧
    ∃ s2, FollowerExecuteDBState exStateC3 exMsgC3 = .ok s2 ∧
      (aget s2.DBStates 2000).map DBState.ReadyToSave = some true ∧
      (aget s2.DBStates 2000).map DBState.Signed = some true ∧
      s2.FReplay.seenB ((exMsgC3.FactoidBlock.Transactions.getD 0 {}).sigHash) = true := by
  refine ⟨rfl, by decide, ?_⟩
  refine ⟨_, rfl, ?_, ?_, ?_⟩ <;> decide

/-- The same scenario one block earlier (height 1500, inside the scanned
window), used to witness the amended scan-rejection theorem. -/
def exStateC3b : State :=
  { Network := "LOCAL"
    FReplay := { seen := [.raw 77] }
    DBStates := [(1499, { DirectoryBlock := { DBHeight := 1499 }, Saved := true })] }

/-- A DBState message at height 1500 with a failing non-coinbase tx. -/
def exMsgC3b : DBStateMsg :=
  { DirectoryBlock := { DBHeight := 1500, KeyMR := "k", Timestamp := 5 }
    FactoidBlock :=
      { Transactions := [{ sigHash := .raw 70, Timestamp := 1 },
                         { sigHash := .raw 77, Timestamp := 2 }] }
    ValidNextR := 1 }

/-- Witness for C3: at height 1500 the invalid transaction makes the whole
block get rejected, with the filter untouched and the snapshot unflagged. -/
theorem followerExecuteDBState_scan_reject_witness :
    ∃ s2, FollowerExecuteDBState exStateC3b exMsgC3b = .ok s2 ∧
      s2.FReplay = exStateC3b.FReplay ∧
      (∀ d, aget s2.DBStates exMsgC3b.DirectoryBlock.DBHeight = some d →
        d.ReadyToSave = false ∧ d.Signed = false ∧ d.Saved = false) :=
  followerExecuteDBState_scan_reject exStateC3b exMsgC3b
    { DirectoryBlock := { DBHeight := 1499 }, Saved := true }
    (by decide) rfl (by decide) rfl rfl (by decide)

theorem plPeek_eq_of_aget (s : State) (ht : Nat) (pl : ProcessList)
    (h : aget s.ProcessLists ht = some pl) : plPeek s ht = pl := by
  unfold plPeek
  rw [h]
  rfl

theorem addDBState_low_eq (s : State) (isNew : Bool) (dB : DBlock) (aB : Nat)
    (fB : FBlock) (ecB : Nat) (ebs ents : List Nat)
    (hok : s.env.newDBStateOK = true)
    (hcp : CheckDBKeyMR s dB.DBHeight dB.KeyMR = none)
    (hle : dB.DBHeight ≤ s.LLeaderHeight)
    (hpos : 1 ≤ s.LLeaderHeight) :
    AddDBState s isNew dB aB fB ecB ebs ents =
      .ok ({ s with DBStates := (aput s.DBStates dB.DBHeight
              (newSnapshot isNew dB aB fB ecB ebs ents)) },
           some (newSnapshot isNew dB aB fB ecB ebs ents)) := by
  unfold AddDBState newDBState
  simp only [hok, if_true, newSnapshot]
  simp only [checkDBKeyMR_update_dbstates, hcp]
  have hgt : ¬(dB.DBHeight > s.LLeaderHeight) := not_lt.mpr hle
  simp only [if_neg hgt]
  have hc0 : ¬(dB.DBHeight = 0 ∧ s.LLeaderHeight < 1) := by omega
  simp only [if_neg hc0]

theorem blockCloseFinish_ok (s : State) (d : DBState) (gvi : Nat)
    (hdbht : d.DirectoryBlock.DBHeight = s.LLeaderHeight)
    (hpos : 1 ≤ s.LLeaderHeight)
    (hsig : s.env.signFails = false)
    (hack : s.env.ackChangeVal = 0)
    (hgv : s.env.getVirtualServers (s.LLeaderHeight + 1) 0 = (true, gvi))
    (hnew : aget s.ProcessLists (s.LLeaderHeight + 1) = none) :
    ∃ s2, blockCloseFinish s d = .ok s2 ∧
      s2.DBStates = s.DBStates ∧
      Event.fixupLinksEv (s.LLeaderHeight - 1) s.LLeaderHeight ∈ s2.trace ∧
      s2.CurrentMinute = 0 ∧ s2.LLeaderHeight = s.LLeaderHeight + 1 ∧
      Event.leaderExecDBSigEv (s.LLeaderHeight + 1) true ∈ s2.trace ∧
      (aget s2.ProcessLists (s.LLeaderHeight + 1)).map ProcessList.DBSigAlreadySent
        = some true ∧
      s2.Saving = true := by
  unfold blockCloseFinish CheckForIDChange plGetPair plSet plNew
  simp only [hdbht, hack, hsig, hgv, hnew, aget_aput_self, if_true, if_false,
    show (s.LLeaderHeight > 0) = True from eq_true (by omega),
    show ((0:Nat) > 0) = False from eq_false (by omega),
    false_and, Bool.not_false, and_true, true_and, and_self,
    Bool.false_eq_true]
  refine ⟨_, rfl, rfl, ?_, rfl, rfl, ?_, ?_, rfl⟩
  · simp [List.mem_append]
  · simp [List.mem_append]
  · simp [aget_aput_self]

theorem processEOMBlockClose_ok (s : State) (pl lpl : ProcessList) (gvi : Nat)
    (hlpl : aget s.ProcessLists s.LeaderPLHeight = some lpl)
    (hdbht : lpl.DirectoryBlock.DBHeight = s.LLeaderHeight)
    (hpos : 1 ≤ s.LLeaderHeight)
    (hok : s.env.newDBStateOK = true)
    (hcp : CheckDBKeyMR s lpl.DirectoryBlock.DBHeight lpl.DirectoryBlock.KeyMR = none)
    (hsig : s.env.signFails = false)
    (hack : s.env.ackChangeVal = 0)
    (hgv : s.env.getVirtualServers (s.LLeaderHeight + 1) 0 = (true, gvi))
    (hnone : aget s.ProcessLists (s.LLeaderHeight + 1) = none) :
    ∃ s2, processEOMBlockClose s pl = .ok s2 ∧
      (aget s2.DBStates s.LLeaderHeight).map DBState.IsNew = some true ∧
      Event.fixupLinksEv (s.LLeaderHeight - 1) s.LLeaderHeight ∈ s2.trace ∧
      s2.CurrentMinute = 0 ∧
      s2.LLeaderHeight = s.LLeaderHeight + 1 ∧
      Event.leaderExecDBSigEv (s.LLeaderHeight + 1) true ∈ s2.trace ∧
      (aget s2.ProcessLists (s.LLeaderHeight + 1)).map ProcessList.DBSigAlreadySent
        = some true ∧
      s2.Saving = true := by
  obtain ⟨s2, heq, hDB, h1, h2, h3, h4, h5, h6⟩ :=
    blockCloseFinish_ok { s with DBStates := (aput s.DBStates
        lpl.DirectoryBlock.DBHeight (newSnapshot true lpl.DirectoryBlock
          lpl.AdminBlock s.FactoidStateCurrentBlock lpl.EntryCreditBlock
          pl.NewEBlocks pl.NewEntries)) }
      (newSnapshot true lpl.DirectoryBlock lpl.AdminBlock
        s.FactoidStateCurrentBlock lpl.EntryCreditBlock
        pl.NewEBlocks pl.NewEntries) gvi hdbht hpos hsig hack hgv hnone
  refine ⟨s2, ?_, ?_, h1, h2, h3, h4, h5, h6⟩
  · simp only [processEOMBlockClose, plPeek_eq_of_aget s _ _ hlpl,
      addDBState_low_eq s true lpl.DirectoryBlock lpl.AdminBlock
        s.FactoidStateCurrentBlock lpl.EntryCreditBlock pl.NewEBlocks
        pl.NewEntries hok hcp (le_of_eq hdbht) hpos]
    exact heq
  · rw [hDB, ← hdbht]
    simp [aget_aput_self, newSnapshot]


theorem eomCompletionAdvance_ok (t : State) (dbheight : Nat)
    (pl lpl : ProcessList) (e : EOMMsg) (gvi : Nat)
    (hLeader : t.Leader = true) (hCM : t.CurrentMinute = 9)
    (hlpl : aget t.ProcessLists t.LeaderPLHeight = some lpl)
    (hdbht : lpl.DirectoryBlock.DBHeight = t.LLeaderHeight)
    (hpos : 1 ≤ t.LLeaderHeight)
    (hok : t.env.newDBStateOK = true)
    (hcp : CheckDBKeyMR t lpl.DirectoryBlock.DBHeight lpl.DirectoryBlock.KeyMR = none)
    (hsig : t.env.signFails = false)
    (hack : t.env.ackChangeVal = 0)
    (hgv : t.env.getVirtualServers (t.LLeaderHeight + 1) 0 = (true, gvi))
    (hnone : aget t.ProcessLists (t.LLeaderHeight + 1) = none) :
    ∃ s2, eomCompletionAdvance t dbheight pl e = .ok (s2, false) ∧
      (aget s2.DBStates t.LLeaderHeight).map DBState.IsNew = some true ∧
      Event.fixupLinksEv (t.LLeaderHeight - 1) t.LLeaderHeight ∈ s2.trace ∧
      s2.CurrentMinute = 0 ∧
      s2.LLeaderHeight = t.LLeaderHeight + 1 ∧
      Event.leaderExecDBSigEv (t.LLeaderHeight + 1) true ∈ s2.trace ∧
      (aget s2.ProcessLists (t.LLeaderHeight + 1)).map ProcessList.DBSigAlreadySent
        = some true ∧
      s2.Saving = true := by
  obtain ⟨s2, heq, h1, h2, h3, h4, h5, h6, h7⟩ :=
    processEOMBlockClose_ok
      { t with EOMDone := true
               trace := t.trace ++
                 pl.NewEBlocks.map (fun eb => Event.minuteMarkerEv eb (e.Minute + 1))
                 ++ [Event.endOfPeriodEv e.Minute]
                 ++ [Event.ecMinuteNumberEv (e.Minute + 1)]
               CurrentMinute := t.CurrentMinute + 1 }
      pl lpl gvi hlpl hdbht hpos hok hcp hsig hack hgv hnone
  simp only [hCM, hLeader] at heq
  simp only [] at h1 h2 h3 h4 h5 h6 h7
  refine ⟨eomCompletionTail s2, ?_, ?_, ?_, ?_, ?_, ?_, ?_, ?_⟩
  · simp only [eomCompletionAdvance, hLeader, hCM, Bool.not_true, if_false,
      Bool.false_eq_true, heq,
      show ((9:Nat) + 1 < 10) = False from eq_false (by omega),
      show (((9:Nat) + 1 = 10)) = True from eq_true (by omega),
      if_true]
  · simpa [eomCompletionTail] using h1
  · simp only [eomCompletionTail, List.mem_append]
    exact Or.inl h2
  · simpa [eomCompletionTail] using h3
  · simpa [eomCompletionTail] using h4
  · simp only [eomCompletionTail, List.mem_append]
    exact Or.inl h5
  · simpa [eomCompletionTail] using h6
  · simpa [eomCompletionTail] using h7


/-- C6: when the last EOM of minute 9 completes the sync, `ProcessEOM`
closes the block: it adds a new DBState with `IsNew = true`, calls
`FixupLinks` with the previous directory block, resets `CurrentMinute`
to 0, increments `LLeaderHeight` by exactly one, and, as the node leads
and `DBSigAlreadySent` is clear on the fresh process list, leader-executes
a DirectoryBlockSignature, sets `DBSigAlreadySent := true` and finally
`Saving := true`. -/
theorem processEOM_block_close (s : State) (dbheight : Nat) (e : EOMMsg)
    (pl lpl : ProcessList) (gvi : Nat)
    (hEOM : s.EOM = true)
    (hMin : (e.Minute : Int) ≤ s.EOMMinute)
    (hDone : s.EOMDone = false)
    (hpl : aget s.ProcessLists dbheight = some pl)
    (hsys : pl.SystemHeight ≥ (e.SysHeight : Int))
    (hvs : (pl.VMs.getD e.VMIndex {}).Synced = true)
    (hlpl : aget s.ProcessLists s.LeaderPLHeight = some lpl)
    (hall : lpl.SystemHeight ≥ lpl.SysHighest)
    (hproc : s.EOMProcessed = s.EOMLimit)
    (hLeader : s.Leader = true)
    (hCM : s.CurrentMinute = 9)
    (hdbht : lpl.DirectoryBlock.DBHeight = s.LLeaderHeight)
    (hpos : 1 ≤ s.LLeaderHeight)
    (hok : s.env.newDBStateOK = true)
    (hcp : CheckDBKeyMR s lpl.DirectoryBlock.DBHeight lpl.DirectoryBlock.KeyMR = none)
    (hsig : s.env.signFails = false)
    (hack : s.env.ackChangeVal = 0)
    (hgv : s.env.getVirtualServers (s.LLeaderHeight + 1) 0 = (true, gvi))
    (hnone : aget s.ProcessLists (s.LLeaderHeight + 1) = none) :
    ∃ s2, ProcessEOM s dbheight e = .ok (s2, false) ∧
      (aget s2.DBStates s.LLeaderHeight).map DBState.IsNew = some true ∧
      Event.fixupLinksEv (s.LLeaderHeight - 1) s.LLeaderHeight ∈ s2.trace ∧
      s2.CurrentMinute = 0 ∧
      s2.LLeaderHeight = s.LLeaderHeight + 1 ∧
      Event.leaderExecDBSigEv (s.LLeaderHeight + 1) true ∈ s2.trace ∧
      (aget s2.ProcessLists (s.LLeaderHeight + 1)).map ProcessList.DBSigAlreadySent
        = some true ∧
      s2.Saving = true := by
  obtain ⟨s2, heq, h1, h2, h3, h4, h5, h6, h7⟩ :=
    eomCompletionAdvance_ok { s with EOMSys := true } dbheight pl lpl e gvi
      hLeader hCM hlpl hdbht hpos hok
      ((checkDBKeyMR_congr { s with EOMSys := true } s lpl.DirectoryBlock.DBHeight
          lpl.DirectoryBlock.KeyMR rfl rfl rfl).trans hcp)
      hsig hack hgv hnone
  simp only [] at h1 h2 h3 h4 h5 h6 h7
  simp only [hEOM, hDone, hLeader, hproc, hCM] at heq
  refine ⟨s2, ?_, h1, h2, h3, h4, h5, h6, h7⟩
  unfold ProcessEOM plGetPair plPeek
  simp only [hpl, hEOM, hDone, hvs, hLeader, hproc, hCM,
    Bool.not_true, Bool.not_false, Bool.false_eq_true, false_and, and_false,
    if_false, if_true, true_and, and_true, eq_self_iff_true, Option.getD_some,
    show ((e.Minute : Int) > s.EOMMinute) = False from
      eq_false (not_lt.mpr hMin),
    show (pl.SystemHeight ≥ (e.SysHeight : Int)) = True from eq_true hsys,
    hlpl,
    show (lpl.SystemHeight ≥ lpl.SysHighest) = True from eq_true hall,
    heq]


/-- A one-server process list at height 1 for the block-close witness. -/
def exPLC6 : ProcessList :=
  { DBHeight := 1
    FedServers := [1]
    VMs := [{ Synced := true }]
    DirectoryBlock := { DBHeight := 1 } }

/-- A leading node at height 1 in minute 9 with its EOM sync one message
from completion. -/
def exStateC6 : State :=
  { LLeaderHeight := 1
    LeaderPLHeight := 1
    CurrentMinute := 9
    Leader := true
    EOM := true
    EOMMinute := 9
    ProcessLists := [(1, exPLC6)]
    env := { getVirtualServers := fun _ _ => (true, 0) } }

/-- Witness for C6 on the concrete single-server state: the closing EOM at
minute 9 produces the fresh `IsNew` snapshot, the link fixup, minute 0 at
height 2, the leader DBSig and the `Saving` flag. -/
theorem processEOM_block_close_witness :
    ∃ s2, ProcessEOM exStateC6 1 { VMIndex := 0, Minute := 9 } = .ok (s2, false) ∧
      (aget s2.DBStates 1).map DBState.IsNew = some true ∧
      Event.fixupLinksEv 0 1 ∈ s2.trace ∧
      s2.CurrentMinute = 0 ∧ s2.LLeaderHeight = 2 ∧
      Event.leaderExecDBSigEv 2 true ∈ s2.trace ∧
      (aget s2.ProcessLists 2).map ProcessList.DBSigAlreadySent = some true ∧
      s2.Saving = true :=
  processEOM_block_close exStateC6 1 { VMIndex := 0, Minute := 9 } exPLC6 exPLC6 0
    rfl (by decide) rfl rfl (by decide) rfl rfl (by decide) rfl rfl rfl rfl
    (by decide) rfl rfl rfl rfl rfl rfl


/-! ## C7: monotonicity of LLeaderHeight -/

theorem plGetPair_LL_eq (s : State) (ht : Nat) (s1 : State) (pl : ProcessList)
    (h : plGetPair s ht = (s1, pl)) : s1.LLeaderHeight = s.LLeaderHeight := by
  unfold plGetPair at h
  split at h <;> (cases h; rfl)

theorem addToProcessList_LL (s : State) (ht : Nat) (a : Ack) (m : Msg) :
    (AddToProcessList s ht a m).LLeaderHeight = s.LLeaderHeight := by
  unfold AddToProcessList
  rcases hsp : plGetPair s ht with ⟨s1, pl⟩
  simp only [hsp, plSet]
  exact plGetPair_LL_eq s ht s1 pl hsp

theorem followerExecuteMsg_LL (s : State) (m : Msg) :
    (FollowerExecuteMsg s m).LLeaderHeight = s.LLeaderHeight := by
  unfold FollowerExecuteMsg
  cases hg : aget s.Acks m.MsgHash with
  | none => simp [hg]
  | some ack =>
      simp only [hg]
      rcases hsp : plGetPair { s with Holding := aput s.Holding m.MsgHash m }
          ack.DBHeight with ⟨s1, pl⟩
      simp only [hsp]
      rw [addToProcessList_LL]
      exact plGetPair_LL_eq { s with Holding := aput s.Holding m.MsgHash m }
        ack.DBHeight s1 pl hsp

theorem newAck_LL (s : State) (m : Msg) (bh : Option HashV) :
    ((NewAck s m bh).1).LLeaderHeight = s.LLeaderHeight := by
  unfold NewAck
  rcases hsp : plGetPair s s.LLeaderHeight with ⟨s1, pl⟩
  simp only [hsp]
  split <;> exact plGetPair_LL_eq _ _ _ _ hsp

theorem leaderExecute_LL (s : State) (m : Msg) :
    (LeaderExecute s m).LLeaderHeight = s.LLeaderHeight := by
  unfold LeaderExecute
  split
  · rfl
  · rcases hna : NewAck s m none with ⟨s1, m1, a1⟩
    simp only [hna]
    rcases hsp : plGetPair s1 a1.DBHeight with ⟨s2, pl⟩
    simp only [hsp]
    rw [addToProcessList_LL]
    have h1 : s1.LLeaderHeight = s.LLeaderHeight := by
      have h2 := newAck_LL s m none
      rw [hna] at h2
      exact h2
    rw [plGetPair_LL_eq _ _ _ _ hsp, h1]

theorem trimBackStep_LL (s : State) (h : Nat) (s2 : State)
    (he : trimBackStep s h = .ok s2) : s2.LLeaderHeight = s.LLeaderHeight := by
  unfold trimBackStep at he
  repeat' split at he
  all_goals cases he
  all_goals rfl

theorem bufferDBStateMsg_LL (s : State) (m : DBStateMsg) (ht : Nat) :
    (bufferDBStateMsg s m ht).LLeaderHeight = s.LLeaderHeight := by
  simp only [bufferDBStateMsg, ExecuteEntriesInDBState]
  repeat' split
  all_goals rfl

theorem cntFail_LL (s : State) (m : DBStateMsg) :
    (cntFail s m).LLeaderHeight = s.LLeaderHeight := by
  unfold cntFail
  split <;> rfl


theorem addDBState_tail_mono (s1 : State) (ht : Nat) :
    s1.LLeaderHeight ≤
      (if ht = 0 ∧
          (if ht > s1.LLeaderHeight then addDBStateAdvance s1 ht
           else s1).LLeaderHeight < 1 then
        { (if ht > s1.LLeaderHeight then addDBStateAdvance s1 ht else s1) with
            LLeaderHeight := 1 }
       else if ht > s1.LLeaderHeight then addDBStateAdvance s1 ht
       else s1).LLeaderHeight := by
  by_cases hgt : ht > s1.LLeaderHeight
  · simp only [if_pos hgt]
    split
    · rename_i h0
      exact absurd hgt (by omega)
    · rw [(addDBStateAdvance_preserves s1 ht).2.2]
      omega
  · simp only [if_neg hgt]
    split
    · rename_i h0
      show s1.LLeaderHeight ≤ 1
      omega
    · exact le_refl _

theorem addDBState_LL_mono (s : State) (isNew : Bool) (dB : DBlock) (aB : Nat)
    (fB : FBlock) (ecB : Nat) (ebs ents : List Nat) (s2 : State)
    (od : Option DBState)
    (h : AddDBState s isNew dB aB fB ecB ebs ents = .ok (s2, od)) :
    s.LLeaderHeight ≤ s2.LLeaderHeight := by
  unfold AddDBState newDBState at h
  by_cases hok : s.env.newDBStateOK = true
  · simp only [hok, if_true] at h
    simp only [newSnapshot] at h
    rw [checkDBKeyMR_update_dbstates] at h
    cases hcp : CheckDBKeyMR s dB.DBHeight dB.KeyMR with
    | some v => rw [hcp] at h; cases h
    | none =>
        rw [hcp] at h
        simp only [Except.ok.injEq, Prod.mk.injEq] at h
        obtain ⟨hs2, hod⟩ := h
        subst hs2
        exact addDBState_tail_mono
          { s with DBStates := (aput s.DBStates dB.DBHeight
              (newSnapshot isNew dB aB fB ecB ebs ents)) } dB.DBHeight
  · simp only [Bool.not_eq_true] at hok
    simp only [hok, Bool.false_eq_true, if_false] at h
    simp only [Except.ok.injEq, Prod.mk.injEq] at h
    obtain ⟨hs2, hod⟩ := h
    subst hs2
    exact le_refl _


theorem plGetPair_fst_LL (s : State) (ht : Nat) :
    ((plGetPair s ht).1).LLeaderHeight = s.LLeaderHeight := by
  rcases hsp : plGetPair s ht with ⟨s1, pl⟩
  exact plGetPair_LL_eq s ht s1 pl hsp

theorem sendDBSig_LL (dbh : Nat) : ∀ (s : State) (vmi : Nat) (s2 : State),
    SendDBSig s dbh vmi = .ok s2 → s2.LLeaderHeight = s.LLeaderHeight := by
  induction dbh using Nat.strong_induction_on with
  | _ dbh ih =>
    intro s vmi s2 h
    unfold SendDBSig at h
    split at h
    · cases h; rfl
    · dsimp only at h
      repeat' split at h
      all_goals first
        | (cases h
           first
             | rfl
             | exact plGetPair_fst_LL s dbh
             | simp [plSet, plGetPair_fst_LL])
        | (rename_i hd
           exact (ih (dbh - 1) (Nat.sub_lt hd.2 Nat.one_pos) _ vmi s2 h).trans
             (plGetPair_fst_LL s dbh))
        | simp at h


theorem ite_LL (c : Prop) [Decidable c] (a b : State) (v : Nat)
    (ha : a.LLeaderHeight = v) (hb : b.LLeaderHeight = v) :
    (if c then a else b).LLeaderHeight = v := by
  split
  · exact ha
  · exact hb

theorem exceptTail_LL (c5 c6 c7 : Prop) [Decidable c5] [Decidable c6]
    [Decidable c7] (L1 L2 L3 : State) (e : String) (s2 : State) (v : Nat)
    (h1 : L1.LLeaderHeight = v) (h2 : L2.LLeaderHeight = v)
    (h3 : L3.LLeaderHeight = v)
    (h : (if c5 then
            (if c6 then (if c7 then Except.error e else .ok L1) else .ok L2)
          else .ok L3) = .ok s2) :
    s2.LLeaderHeight = v := by
  split at h
  · split at h
    · split at h
      · exact Except.noConfusion h
      · cases h; exact h1
    · cases h; exact h2
  · cases h; exact h3

theorem dbstateApplyTail_LL (s : State) (m : DBStateMsg) (dbh : Nat)
    (s2 : State) (h : dbstateApplyTail s m dbh = .ok s2) :
    s2.LLeaderHeight = s.LLeaderHeight := by
  unfold dbstateApplyTail at h
  dsimp only at h
  cases hdb : aget s.DBStates dbh with
  | none =>
      simp only [hdb] at h
      exact exceptTail_LL _ _ _ _ _ _ _ _ _
        (by repeat' (first | rfl | apply ite_LL))
        (by repeat' (first | rfl | apply ite_LL))
        (by repeat' (first | rfl | apply ite_LL)) h
  | some dbstate =>
      simp only [hdb] at h
      exact exceptTail_LL _ _ _ _ _ _ _ _ _
        (by repeat' (first | rfl | apply ite_LL))
        (by repeat' (first | rfl | apply ite_LL))
        (by repeat' (first | rfl | apply ite_LL)) h

theorem followerExecuteDBState_LL_mono (s : State) (m : DBStateMsg) (s2 : State)
    (h : FollowerExecuteDBState s m = .ok s2) :
    s.LLeaderHeight ≤ s2.LLeaderHeight := by
  unfold FollowerExecuteDBState at h
  dsimp only at h
  split at h
  · cases h; exact le_refl _
  · split at h
    · cases h; exact le_of_eq (bufferDBStateMsg_LL s m _).symm
    · split at h
      · cases h; exact le_of_eq (cntFail_LL s m).symm
      · split at h
        · exact Except.noConfusion h
        · rename_i s1 heq1
          have hll1 : s1.LLeaderHeight = s.LLeaderHeight :=
            trimBackStep_LL s m.DirectoryBlock.DBHeight s1 heq1
          split at h
          · exact Except.noConfusion h
          · rename_i s1b heq2
            cases h
            rw [cntFail_LL]
            exact le_trans (le_of_eq hll1.symm)
              (addDBState_LL_mono _ _ _ _ _ _ _ _ _ _ heq2)
          · rename_i s1b x heq2
            have hle : s.LLeaderHeight ≤ s1b.LLeaderHeight :=
              le_trans (le_of_eq hll1.symm)
                (addDBState_LL_mono _ _ _ _ _ _ _ _ _ _ heq2)
            split at h
            · cases h; exact hle
            · exact le_trans hle (le_of_eq (dbstateApplyTail_LL _ _ _ _ h).symm)


theorem eomCompletionTail_LL (t : State) :
    (eomCompletionTail t).LLeaderHeight = t.LLeaderHeight := rfl

theorem sendHeartBeat_LL (t : State) :
    (SendHeartBeat t).LLeaderHeight = t.LLeaderHeight := by
  unfold SendHeartBeat
  split <;> rfl

theorem plSet_LL (t : State) (ht : Nat) (p : ProcessList) :
    (plSet t ht p).LLeaderHeight = t.LLeaderHeight := rfl

theorem exceptTail2_LL (ca cb : Prop) [Decidable ca] [Decidable cb]
    (L1 L2 : State) (e : String) (s2 : State) (v : Nat)
    (h1 : L1.LLeaderHeight = v) (h2 : L2.LLeaderHeight = v)
    (h : (if ca then (if cb then Except.error e else .ok L1) else .ok L2)
          = .ok s2) :
    s2.LLeaderHeight = v := by
  split at h
  · split at h
    · exact Except.noConfusion h
    · cases h; exact h1
  · cases h; exact h2

set_option maxHeartbeats 1600000 in
theorem blockCloseFinish_LL (s : State) (d : DBState) (s2 : State)
    (h : blockCloseFinish s d = .ok s2) :
    s2.LLeaderHeight = s.LLeaderHeight + 1 := by
  unfold blockCloseFinish CheckForIDChange at h
  dsimp only at h
  refine exceptTail2_LL _ _ _ _ _ _ _ ?_ ?_ h <;>
    (repeat' (first | dsimp only | rw [plGetPair_fst_LL] | rw [plSet_LL]
                    | apply ite_LL | (refine congrArg (fun x => x + 1) ?_)
                    | rfl))

theorem processEOMBlockClose_LL_mono (s : State) (pl : ProcessList)
    (s2 : State) (h : processEOMBlockClose s pl = .ok s2) :
    s.LLeaderHeight ≤ s2.LLeaderHeight := by
  unfold processEOMBlockClose at h
  dsimp only at h
  split at h
  · exact Except.noConfusion h
  · rename_i s1 od heq1
    have h1 : s.LLeaderHeight ≤ s1.LLeaderHeight :=
      addDBState_LL_mono _ _ _ _ _ _ _ _ _ _ heq1
    repeat' split at h
    all_goals solve
      | exact Except.noConfusion h
      | (have h2 := blockCloseFinish_LL _ _ _ h; omega)

set_option maxHeartbeats 1600000 in
theorem minuteOneSaveStep_LL (s : State) (dbh : Nat) (t : State)
    (h : minuteOneSaveStep s dbh = .ok t) :
    t.LLeaderHeight = s.LLeaderHeight := by
  unfold minuteOneSaveStep at h
  repeat' split at h
  all_goals first
    | (cases h; rfl)
    | exact Except.noConfusion h

theorem eomDoneStep_LL (s : State) (dbh : Nat) :
    ((eomDoneStep s dbh).1).LLeaderHeight = s.LLeaderHeight := by
  unfold eomDoneStep
  repeat' split
  all_goals
    repeat' (first | dsimp only | rw [sendHeartBeat_LL] | apply ite_LL | rfl)

theorem eomOpenStep_LL (s : State) (dbh : Nat) (e : EOMMsg) :
    (eomOpenStep s dbh e).LLeaderHeight = s.LLeaderHeight := by
  unfold eomOpenStep
  repeat' (first | dsimp only | rw [plGetPair_fst_LL] | rw [plSet_LL]
                 | apply ite_LL | rfl)

theorem eomSyncStep_LL (s : State) (dbh : Nat) (e : EOMMsg)
    (pl : ProcessList) (vm : VM) :
    (eomSyncStep s dbh e pl vm).LLeaderHeight = s.LLeaderHeight := by
  unfold eomSyncStep
  repeat' (first | dsimp only | rw [plGetPair_fst_LL] | rw [plSet_LL]
                 | apply ite_LL | rfl)

set_option maxHeartbeats 1600000 in
theorem eomCompletionAdvance_LL_mono (s : State) (dbh : Nat)
    (pl : ProcessList) (e : EOMMsg) (s2 : State) (b : Bool)
    (h : eomCompletionAdvance s dbh pl e = .ok (s2, b)) :
    s.LLeaderHeight ≤ s2.LLeaderHeight := by
  unfold eomCompletionAdvance at h
  dsimp only at h
  repeat' split at h
  all_goals solve
    | exact Except.noConfusion h
    | (rename_i t heq
       cases h
       refine le_of_eq (Eq.symm ?_)
       rw [eomCompletionTail_LL]
       repeat' (first | dsimp only | rw [plGetPair_fst_LL] | rw [plSet_LL]
                      | apply ite_LL | rfl)
       rw [minuteOneSaveStep_LL _ _ _ heq]
       repeat' (first | dsimp only | apply ite_LL | rfl))
    | (rename_i t heq
       cases h
       rw [eomCompletionTail_LL]
       refine le_trans (le_of_eq (Eq.symm ?_))
         (processEOMBlockClose_LL_mono _ _ _ heq)
       repeat' (first | dsimp only | rw [plGetPair_fst_LL] | rw [plSet_LL]
                      | apply ite_LL | rfl))
    | (cases h
       refine le_of_eq (Eq.symm ?_)
       rw [eomCompletionTail_LL]
       repeat' (first | dsimp only | rw [plGetPair_fst_LL] | rw [plSet_LL]
                      | apply ite_LL | rfl))

set_option maxHeartbeats 1600000 in
theorem processEOM_LL_mono (s : State) (dbh : Nat) (e : EOMMsg) (s2 : State)
    (b : Bool) (h : ProcessEOM s dbh e = .ok (s2, b)) :
    s.LLeaderHeight ≤ s2.LLeaderHeight := by
  unfold ProcessEOM at h
  dsimp only at h
  repeat' split at h
  all_goals solve
    | exact Except.noConfusion h
    | (refine le_of_eq (Eq.symm ?_)
       injection h with h2
       have h3 := congrArg Prod.fst h2
       dsimp only at h3
       rw [← h3]
       repeat' (first | dsimp only | rw [plGetPair_fst_LL] | rw [plSet_LL]
                      | rw [eomDoneStep_LL] | rw [eomOpenStep_LL]
                      | rw [eomSyncStep_LL] | apply ite_LL | rfl))
    | (refine le_trans (le_of_eq (Eq.symm ?_))
         (eomCompletionAdvance_LL_mono _ _ _ _ _ _ h)
       repeat' (first | dsimp only | rw [plGetPair_fst_LL] | apply ite_LL
                      | rfl))


theorem leaderDispatch_LL_mono (s : State) (m : Msg) (s2 : State)
    (h : leaderDispatch s m = .ok s2) :
    s.LLeaderHeight ≤ s2.LLeaderHeight := by
  unfold leaderDispatch at h
  split at h
  · exact followerExecuteDBState_LL_mono _ _ _ h
  · cases h; exact le_of_eq (leaderExecute_LL s m).symm

theorem followerDispatch_LL_mono (s : State) (m : Msg) (s2 : State)
    (h : followerDispatch s m = .ok s2) :
    s.LLeaderHeight ≤ s2.LLeaderHeight := by
  unfold followerDispatch at h
  split at h
  · exact followerExecuteDBState_LL_mono _ _ _ h
  · cases h; exact le_of_eq (followerExecuteMsg_LL s m).symm

set_option maxHeartbeats 1600000 in
theorem executeMsg_LL_mono (s : State) (vmo : Option VM) (m : Msg)
    (s2 : State) (m2 : Msg) (b : Bool)
    (h : executeMsg s vmo m = .ok (s2, m2, b)) :
    s.LLeaderHeight ≤ s2.LLeaderHeight := by
  unfold executeMsg at h
  dsimp only at h
  repeat' split at h
  all_goals solve
    | exact Except.noConfusion h
    | (refine le_of_eq (Eq.symm ?_)
       injection h with h2
       have h3 := congrArg Prod.fst h2
       dsimp only at h3
       rw [← h3]
       repeat' (first | dsimp only | apply ite_LL | rfl))
    | (rename_i t heq
       refine le_of_eq (Eq.symm ?_)
       injection h with h2
       have h3 := congrArg Prod.fst h2
       dsimp only at h3
       rw [← h3]
       dsimp only
       exact sendDBSig_LL _ _ _ _ heq)
    | (rename_i t heq
       injection h with h2
       have h3 := congrArg Prod.fst h2
       dsimp only at h3
       rw [← h3]
       exact leaderDispatch_LL_mono _ _ _ heq)
    | (rename_i t heq
       injection h with h2
       have h3 := congrArg Prod.fst h2
       dsimp only at h3
       rw [← h3]
       exact followerDispatch_LL_mono _ _ _ heq)

/-- C7: `LLeaderHeight` is monotonically non-decreasing.  No successful run
of `AddDBState`, `FollowerExecuteDBState`, `ProcessEOM` (which contains the
block-close assignment) or `executeMsg` (the dispatcher running the
leader and follower executions) returns a state whose `LLeaderHeight` is
strictly below the input state. -/
theorem lleaderHeight_monotone :
    (∀ s isNew dB aB fB ecB ebs ents s2 od,
        AddDBState s isNew dB aB fB ecB ebs ents = .ok (s2, od) →
        s.LLeaderHeight ≤ s2.LLeaderHeight) ∧
    (∀ s m s2, FollowerExecuteDBState s m = .ok s2 →
        s.LLeaderHeight ≤ s2.LLeaderHeight) ∧
    (∀ s dbheight e s2 b, ProcessEOM s dbheight e = .ok (s2, b) →
        s.LLeaderHeight ≤ s2.LLeaderHeight) ∧
    (∀ s vmo m s2 m2 b, executeMsg s vmo m = .ok (s2, m2, b) →
        s.LLeaderHeight ≤ s2.LLeaderHeight) :=
  ⟨fun s isNew dB aB fB ecB ebs ents s2 od h =>
      addDBState_LL_mono s isNew dB aB fB ecB ebs ents s2 od h,
   fun s m s2 h => followerExecuteDBState_LL_mono s m s2 h,
   fun s dbheight e s2 b h => processEOM_LL_mono s dbheight e s2 b h,
   fun s vmo m s2 m2 b h => executeMsg_LL_mono s vmo m s2 m2 b h⟩

/-- Witness for C7: each of the four operations run on a small concrete
state keeps `LLeaderHeight` from decreasing. -/
theorem lleaderHeight_monotone_witness :
    (∃ s2 od, AddDBState {} false {} 0 {} 0 [] [] = .ok (s2, od) ∧
        ({} : State).LLeaderHeight ≤ s2.LLeaderHeight) ∧
    (∃ s2, FollowerExecuteDBState {} { ValidNextR := 0 } = .ok s2 ∧
        ({} : State).LLeaderHeight ≤ s2.LLeaderHeight) ∧
    (∃ s2 b, ProcessEOM { Syncing := true } 0 {} = .ok (s2, b) ∧
        ({ Syncing := true } : State).LLeaderHeight ≤ s2.LLeaderHeight) ∧
    (∃ s2 m2 b, executeMsg {} none {} = .ok (s2, m2, b) ∧
        ({} : State).LLeaderHeight ≤ s2.LLeaderHeight) :=
  ⟨⟨_, _, rfl, lleaderHeight_monotone.1 {} false {} 0 {} 0 [] [] _ _ rfl⟩,
   ⟨_, rfl, lleaderHeight_monotone.2.1 {} { ValidNextR := 0 } _ rfl⟩,
   ⟨_, _, rfl, lleaderHeight_monotone.2.2.1 { Syncing := true } 0 {} _ _ rfl⟩,
   ⟨_, _, _, rfl, lleaderHeight_monotone.2.2.2 {} none {} _ _ _ rfl⟩⟩

end FactomdConsensus
